import Mathlib

/-!
# Vizor bar charts: `Bar.js` (amCharts 4) and `Bar5.js` (amCharts 5)

A shallow embedding of the two React components under
`src/frontend/vizor/src/components/charts/basic/` and of the part of the
JavaScript and React runtimes their effects rely on:

* JavaScript values, `Array.prototype.filter`, `Array.prototype.map`, `Math.min`;
* the chart engine seen as a store of objects plus a chronological log of the
  `create` and `dispose` calls made on it;
* `useEffect`: the effect body runs at mount and after a change of a dependency,
  the cleanup it returned runs before the next effect run and at unmount.
-/

namespace Vizor

/-! ## JavaScript values -/

/-- A JavaScript number. `Math.min` only compares its arguments, it never
rounds, so the finite doubles are embedded in `ℚ` (order preserving); the two
zeroes of the doubles are identified. -/
inductive JSNumber where
  | nan
  | negInf
  | fin (q : ℚ)
  | posInf
  deriving DecidableEq

namespace JSNumber

/-- The `Number.isNaN` test. -/
def isNaN : JSNumber → Bool
  | nan => true
  | _ => false

/-- The `Number.isFinite` test. -/
def isFinite : JSNumber → Bool
  | fin _ => true
  | _ => false

/-- The `x < y` comparison of two numbers (false as soon as one is `NaN`). -/
def lt : JSNumber → JSNumber → Bool
  | nan, _ => false
  | _, nan => false
  | negInf, negInf => false
  | negInf, _ => true
  | _, negInf => false
  | fin a, fin b => decide (a < b)
  | fin _, posInf => true
  | posInf, _ => false

end JSNumber

/-- A scalar held by a record field: a number or a string; `undefined` is what
reading an absent key yields. -/
inductive Value where
  | num (x : JSNumber)
  | str (s : String)
  | undefined
  deriving DecidableEq

/-- A record of the dataset: a flat object, as its list of key/value pairs. -/
abbrev Record := List (String × Value)

/-- The property read `item[key]`. -/
def Record.get (item : Record) (key : String) : Value :=
  match item.lookup key with
  | some v => v
  | none => Value.undefined

/-- The `ToNumber` conversion applied by `Math.min` to each argument. The
conversion of a string to a number is the runtime's and is a parameter. -/
def toNumber (stringToNumber : String → JSNumber) : Value → JSNumber
  | Value.num x => x
  | Value.str s => stringToNumber s
  | Value.undefined => JSNumber.nan

/-- The loop of `Math.min`: `lowest` is replaced by each argument that is smaller,
and a `NaN` argument makes the result `NaN`. -/
def mathMinLoop : JSNumber → List JSNumber → JSNumber
  | lowest, [] => lowest
  | lowest, x :: rest =>
    if x.isNaN then JSNumber.nan
    else mathMinLoop (if JSNumber.lt x lowest then x else lowest) rest

/-- The call `Math.min(...args)` on numbers: the loop started at `+Infinity`. -/
def mathMin (args : List JSNumber) : JSNumber :=
  mathMinLoop JSNumber.posInf args

/-- The loop of `Array.prototype.filter`: the callback receives the element and
its index, the kept elements stay in order. -/
def filterFrom {α : Type} (callback : α → Nat → Bool) : Nat → List α → List α
  | _, [] => []
  | index, item :: rest =>
    if callback item index then item :: filterFrom callback (index + 1) rest
    else filterFrom callback (index + 1) rest

/-- The call `array.filter(callback)`. -/
def jsFilter {α : Type} (array : List α) (callback : α → Nat → Bool) : List α :=
  filterFrom callback 0 array

/-! ## The chart engine -/

/-- The two kinds of engine object the components acquire: `Bar` a chart,
`Bar5` a root and a chart. -/
inductive Kind where
  | chart
  | root
  deriving DecidableEq

/-- A call that acquires or releases an engine object. -/
inductive EngineCall where
  | create (kind : Kind) (id : Nat)
  | dispose (kind : Kind) (id : Nat)
  deriving DecidableEq

/-- The engine as the components see it: the handle the next created object
gets, the chronological log of the `create` and `dispose` calls, and the
settings of each chart object (`χ` is the engine's chart type). -/
structure World (χ : Type) where
  next : Nat
  log : List EngineCall
  chart : Nat → Option χ

namespace World

variable {χ : Type}

/-- The page before anything was rendered. -/
def empty : World χ :=
  { next := 0, log := [], chart := fun _ => none }

/-- Creation of a chart object with settings `c`; its handle is returned. -/
def createChart (w : World χ) (c : χ) : Nat × World χ :=
  (w.next,
   { next := w.next + 1
     log := w.log ++ [EngineCall.create Kind.chart w.next]
     chart := fun j => if j = w.next then some c else w.chart j })

/-- Creation of a root object (amCharts 5); its handle is returned. -/
def createRoot (w : World χ) : Nat × World χ :=
  (w.next,
   { next := w.next + 1
     log := w.log ++ [EngineCall.create Kind.root w.next]
     chart := w.chart })

/-- An assignment to settings of the chart object `id`. -/
def modify (w : World χ) (id : Nat) (f : χ → χ) : World χ :=
  { w with chart := fun j => if j = id then (w.chart j).map f else w.chart j }

/-- The call `object.dispose()`. -/
def dispose (w : World χ) (kind : Kind) (id : Nat) : World χ :=
  { w with log := w.log ++ [EngineCall.dispose kind id] }

end World

/-- One call of the log applied to the list of live objects of a kind. -/
def liveStep (kind : Kind) (live : List Nat) : EngineCall → List Nat
  | EngineCall.create k id => if k = kind then live ++ [id] else live
  | EngineCall.dispose k id => if k = kind then live.filter (fun j => j ≠ id) else live

/-- The objects of a kind that are live after the calls of a log: created and
not disposed since. -/
def live (kind : Kind) (log : List EngineCall) : List Nat :=
  log.foldl (liveStep kind) []

/-- The number of `create` calls of a kind in a log. -/
def creates (kind : Kind) (log : List EngineCall) : Nat :=
  log.countP (fun c => match c with
    | EngineCall.create k _ => decide (k = kind)
    | EngineCall.dispose _ _ => false)

/-- The number of `dispose` calls of a kind in a log. -/
def disposes (kind : Kind) (log : List EngineCall) : Nat :=
  log.countP (fun c => match c with
    | EngineCall.create _ _ => false
    | EngineCall.dispose k _ => decide (k = kind))

/-- The number of `dispose` calls made on one object. -/
def disposeCalls (kind : Kind) (id : Nat) (log : List EngineCall) : Nat :=
  log.count (EngineCall.dispose kind id)

/-- The cleanup function an effect returns. -/
abbrev Cleanup (χ : Type) := World χ → World χ

/-- The statements of an effect body that follow the creation of chart `id`,
run in order from statement number `k`. `fault k` tells whether statement `k`
raises; the body stops there and `false` is returned with the engine as it is
at that point. -/
def attach {χ : Type} (fault : Nat → Bool) (id : Nat) :
    Nat → List (χ → χ) → World χ → World χ × Bool
  | _, [], w => (w, true)
  | k, s :: rest, w =>
    if fault k then (w, false) else attach fault id (k + 1) rest (w.modify id s)

/-- No statement raises. -/
def noFault : Nat → Bool := fun _ => false

/-- The props of both components. -/
structure Props where
  data : List Record
  categoryField : String
  valueField : String
  deriving DecidableEq

/-! ## `Bar.js` (amCharts 4) -/

namespace Bar

/-- The settings `Bar` assigns on its `am4charts.CategoryAxis`. -/
structure CategoryAxis where
  titleText : String
  category : String
  gridLocation : Nat
  minGridDistance : Nat
  horizontalCenter : String
  verticalCenter : String
  rotation : Nat
  tooltipDisabled : Bool
  minHeight : Nat
  deriving DecidableEq

/-- The settings `Bar` assigns on its `am4charts.ValueAxis`; `min` is `none`
as long as nothing was assigned to it. -/
structure ValueAxis where
  titleText : String
  min : Option JSNumber
  minWidth : Nat
  deriving DecidableEq

/-- The properties of the hover state of the column template. -/
structure HoverState where
  cornerRadiusTopLeft : Nat
  cornerRadiusTopRight : Nat
  fillOpacity : ℚ
  deriving DecidableEq

/-- The settings `Bar` assigns on its `am4charts.ColumnSeries`. -/
structure ColumnSeries where
  sequencedInterpolation : Bool
  valueY : String
  categoryX : String
  pointerOrientation : String
  tooltipText : String
  strokeWidth : Nat
  fillOpacity : ℚ
  hover : Option HoverState
  deriving DecidableEq

/-- An `am4charts.XYChart` as far as `Bar` writes to it. -/
structure XYChart where
  data : List Record
  xAxes : List CategoryAxis
  yAxes : List ValueAxis
  series : List ColumnSeries
  cursor : Bool
  mouseWheelBehavior : String
  scrollbarX : Bool
  scrollbarY : Bool
  logoDisabled : Bool
  deriving DecidableEq

/-- The chart `am4core.create("bar-chart", am4charts.XYChart)` returns. -/
def XYChart.new : XYChart :=
  { data := [], xAxes := [], yAxes := [], series := [], cursor := false,
    mouseWheelBehavior := "none", scrollbarX := false, scrollbarY := false,
    logoDisabled := false }

/-- The toggle button of the component. -/
structure Button where
  className : String
  label : String
  onClick : Bool
  deriving DecidableEq

/-- The button `Bar` renders (line 73): `onClick` is the argument its handler
passes to `setTruncate`. -/
def button (truncate : Bool) : Button :=
  if truncate then { className := "btn red-btn", label := "USE ALL DATA", onClick := false }
  else { className := "btn", label := "TRUNCATE", onClick := true }

/-- Lines 16-20: the records assigned to `chart.data`. -/
def chartData (data : List Record) (truncate : Bool) : List Record :=
  if truncate then jsFilter data (fun _item index => decide (index < 100))
  else data

/-- Line 35: `Math.min(...data.map(item => item[valueField]))`. -/
def minimumValue (stringToNumber : String → JSNumber) (data : List Record)
    (valueField : String) : JSNumber :=
  mathMin ((data.map (fun item => item.get valueField)).map (toNumber stringToNumber))

/-- Lines 48-51: the hover state created on the column template. -/
def hoverState : HoverState :=
  { cornerRadiusTopLeft := 0, cornerRadiusTopRight := 0, fillOpacity := 1 }

/-- Lines 16-60 of the effect body, one function per block of statements, in
source order: data, category axis, value axis, series, hover state, cursor,
mouse wheel, scrollbars, logo. -/
def steps (stringToNumber : String → JSNumber) (p : Props) (truncate : Bool) :
    List (XYChart → XYChart) :=
  [ fun c => { c with data := chartData p.data truncate },
    fun c => { c with xAxes := c.xAxes ++ [
      { titleText := p.categoryField, category := p.categoryField, gridLocation := 0,
        minGridDistance := 30, horizontalCenter := "right", verticalCenter := "middle",
        rotation := 270, tooltipDisabled := true, minHeight := 110 }] },
    fun c => { c with yAxes := c.yAxes ++ [
      { titleText := p.valueField,
        min := some (minimumValue stringToNumber p.data p.valueField),
        minWidth := 50 }] },
    fun c => { c with series := c.series ++ [
      { sequencedInterpolation := true, valueY := p.valueField,
        categoryX := p.categoryField, pointerOrientation := "vertical",
        tooltipText := p.categoryField ++ ": [bold]{categoryX}[/]\n" ++ p.valueField
          ++ ": [bold]{valueY}[/]",
        strokeWidth := 0, fillOpacity := 8 / 10, hover := none }] },
    fun c => { c with series := c.series.map (fun s => { s with hover := some hoverState }) },
    fun c => { c with cursor := true },
    fun c => { c with mouseWheelBehavior := "zoomX" },
    fun c => { c with scrollbarX := true, scrollbarY := true },
    fun c => { c with logoDisabled := true } ]

/-- The effect of `Bar` (lines 12-66) run on the engine `w`. Statement 0 is
`am4core.create`; when it raises nothing was acquired. When a later statement
raises, the effect returns no cleanup. Otherwise the cleanup of lines 62-64 is
returned: `chart.dispose()`. -/
def effect (stringToNumber : String → JSNumber) (fault : Nat → Bool) (p : Props)
    (truncate : Bool) (w : World XYChart) : World XYChart × Option (Cleanup XYChart) :=
  if fault 0 then (w, none)
  else
    let created := w.createChart XYChart.new
    let attached := attach fault created.1 1 (steps stringToNumber p truncate) created.2
    (attached.1,
     if attached.2 then some (fun w1 => w1.dispose Kind.chart created.1) else none)

end Bar

/-- React running the cleanup of the previous effect run, when there is one. -/
def runCleanup {χ : Type} (cleanup : Option (Cleanup χ)) (w : World χ) : World χ :=
  match cleanup with
  | some c => c w
  | none => w

namespace Bar

/-- What React holds for a rendered `Bar`: the props, the `truncate` state of
line 10, the engine, and the cleanup returned by the last effect run. -/
structure State where
  props : Props
  truncate : Bool
  world : World XYChart
  cleanup : Option (Cleanup XYChart)

/-- What happens to a mounted `Bar`: the parent renders it with props of which
at least one differs from the previous ones, or the user clicks the button. -/
inductive Event where
  | setProps (p : Props)
  | click

/-- First render on an empty page: `useState(false)`, then the effect. -/
def mount (stringToNumber : String → JSNumber) (fault : Nat → Bool) (p : Props) : State :=
  let r := effect stringToNumber fault p false World.empty
  { props := p, truncate := false, world := r.1, cleanup := r.2 }

/-- A render after which a dependency of line 66 differs: the previous cleanup
runs, then the effect runs with the new values. -/
def rerun (stringToNumber : String → JSNumber) (st : State) (p : Props) (truncate : Bool) :
    State :=
  let r := effect stringToNumber noFault p truncate (runCleanup st.cleanup st.world)
  { props := p, truncate := truncate, world := r.1, cleanup := r.2 }

/-- One event. A click calls `setTruncate` with the argument of the rendered
button; the effect runs again only when `truncate` changed. -/
def step (stringToNumber : String → JSNumber) (st : State) : Event → State
  | Event.setProps p => rerun stringToNumber st p st.truncate
  | Event.click =>
    if (button st.truncate).onClick = st.truncate then st
    else rerun stringToNumber st st.props (button st.truncate).onClick

/-- A sequence of events, in order. -/
def run (stringToNumber : String → JSNumber) (st : State) (events : List Event) : State :=
  events.foldl (step stringToNumber) st

/-- Teardown of the component: React runs the last cleanup. -/
def unmount (st : State) : World XYChart :=
  runCleanup st.cleanup st.world

end Bar

/-! ## `Bar5.js` (amCharts 5) -/

namespace Bar5

/-- The `am5xy.AxisRendererX` of lines 30-38. -/
structure AxisRendererX where
  minGridDistance : Nat
  rotation : Int
  centerY : String
  centerX : String
  paddingRight : Nat
  gridLocation : Nat
  deriving DecidableEq

/-- The `am5xy.CategoryAxis` of lines 40-45 and its data (line 74). -/
structure CategoryAxis where
  renderer : AxisRendererX
  maxDeviation : ℚ
  categoryField : String
  tooltip : Bool
  data : List Record
  deriving DecidableEq

/-- The `am5xy.ValueAxis` of lines 47-52. `min` is the axis setting of that
name; it is `none` when the settings object does not hold it. -/
structure ValueAxis where
  maxDeviation : ℚ
  strokeOpacity : ℚ
  min : Option JSNumber
  deriving DecidableEq

/-- The `am5xy.ColumnSeries` of lines 54-72 and its data (line 75). -/
structure ColumnSeries where
  name : String
  valueYField : String
  sequencedInterpolation : Bool
  categoryXField : String
  labelText : String
  cornerRadiusTopLeft : Nat
  cornerRadiusTopRight : Nat
  strokeOpacity : ℚ
  fillAdapter : Bool
  strokeAdapter : Bool
  data : List Record
  appeared : Bool
  deriving DecidableEq

/-- An `am5xy.XYChart` as far as `Bar5` writes to it. -/
structure XYChart where
  panX : Bool
  panY : Bool
  wheelX : String
  wheelY : String
  pinchZoomX : Bool
  cursorLineYVisible : Option Bool
  xAxes : List CategoryAxis
  yAxes : List ValueAxis
  series : List ColumnSeries
  appeared : Bool
  deriving DecidableEq

/-- The chart of lines 19-25. -/
def XYChart.new : XYChart :=
  { panX := true, panY := true, wheelX := "panX", wheelY := "zoomX", pinchZoomX := true,
    cursorLineYVisible := none, xAxes := [], yAxes := [], series := [], appeared := false }

/-- Lines 30-38: the renderer handed to the category axis. -/
def xRenderer : AxisRendererX :=
  { minGridDistance := 30, rotation := -90, centerY := "p50", centerX := "p100",
    paddingRight := 15, gridLocation := 1 }

/-- Lines 27-78 of the effect body, one function per block of statements, in
source order: cursor, x renderer (a local object, the chart is untouched),
category axis, value axis, series, column template, `xAxis.data.setAll(data)`,
`series.data.setAll(data)`, the two `appear` calls. -/
def steps (p : Props) : List (XYChart → XYChart) :=
  [ fun c => { c with cursorLineYVisible := some false },
    fun c => c,
    fun c => { c with xAxes := c.xAxes ++ [
      { renderer := xRenderer, maxDeviation := 3 / 10, categoryField := p.categoryField,
        tooltip := true, data := [] }] },
    fun c => { c with yAxes := c.yAxes ++ [
      { maxDeviation := 3 / 10, strokeOpacity := 1 / 10, min := none }] },
    fun c => { c with series := c.series ++ [
      { name := "Series 1", valueYField := p.valueField, sequencedInterpolation := true,
        categoryXField := p.categoryField, labelText := "{area}",
        cornerRadiusTopLeft := 0, cornerRadiusTopRight := 0, strokeOpacity := 1,
        fillAdapter := false, strokeAdapter := false, data := [], appeared := false }] },
    fun c => { c with series := c.series.map (fun s =>
      { s with cornerRadiusTopLeft := 5, cornerRadiusTopRight := 5, strokeOpacity := 0,
               fillAdapter := true, strokeAdapter := true }) },
    fun c => { c with xAxes := c.xAxes.map (fun a => { a with data := p.data }) },
    fun c => { c with series := c.series.map (fun s => { s with data := p.data }) },
    fun c => { c with series := c.series.map (fun s => { s with appeared := true }),
                      appeared := true } ]

/-- The effect of `Bar5` (lines 8-86) run on the engine `w`. Statement 0 is
`am5.Root.new`, statement 1 `root.setThemes`, statement 2 the creation of the
chart, statements 3-11 are `steps`. A statement that raises ends the body with
no cleanup returned. Otherwise the cleanup of lines 82-85 is returned:
`chart.dispose(); root.dispose()`. -/
def effect (fault : Nat → Bool) (p : Props) (w : World XYChart) :
    World XYChart × Option (Cleanup XYChart) :=
  if fault 0 then (w, none)
  else
    let root := w.createRoot
    if fault 1 then (root.2, none)
    else if fault 2 then (root.2, none)
    else
      let chart := root.2.createChart XYChart.new
      let attached := attach fault chart.1 3 (steps p) chart.2
      (attached.1,
       if attached.2 then
         some (fun w1 => (w1.dispose Kind.chart chart.1).dispose Kind.root root.1)
       else none)

/-- What React holds for a rendered `Bar5`: the props, the engine, and the
cleanup returned by the last effect run. The component has no state. -/
structure State where
  props : Props
  world : World XYChart
  cleanup : Option (Cleanup XYChart)

/-- First render on an empty page. -/
def mount (fault : Nat → Bool) (p : Props) : State :=
  let r := effect fault p World.empty
  { props := p, world := r.1, cleanup := r.2 }

/-- A render with props of which at least one differs from the previous ones
(the dependencies of line 86): the previous cleanup runs, then the effect. -/
def step (st : State) (p : Props) : State :=
  let r := effect noFault p (runCleanup st.cleanup st.world)
  { props := p, world := r.1, cleanup := r.2 }

/-- A sequence of renders with changed props, in order. -/
def run (st : State) (updates : List Props) : State :=
  updates.foldl step st

/-- Teardown of the component: React runs the last cleanup. -/
def unmount (st : State) : World XYChart :=
  runCleanup st.cleanup st.world

end Bar5

/-! ## Notions used to state the properties -/

/-- The chart after every statement of the body of `Bar`'s effect ran. -/
def Bar.configured (stringToNumber : String → JSNumber) (p : Props) (truncate : Bool) :
    Bar.XYChart :=
  (Bar.steps stringToNumber p truncate).foldl (fun c f => f c) Bar.XYChart.new

/-- The chart after every statement of the body of `Bar5`'s effect ran. -/
def Bar5.configured (p : Props) : Bar5.XYChart :=
  (Bar5.steps p).foldl (fun c f => f c) Bar5.XYChart.new

/-- The props supplied last by a sequence of events that started with `p`. -/
def Bar.lastProps (p : Props) : List Bar.Event → Props
  | [] => p
  | Bar.Event.setProps q :: rest => Bar.lastProps q rest
  | Bar.Event.click :: rest => Bar.lastProps p rest

/-- The number of clicks in a sequence of events. -/
def Bar.clicks : List Bar.Event → Nat
  | [] => 0
  | Bar.Event.setProps _ :: rest => Bar.clicks rest
  | Bar.Event.click :: rest => Bar.clicks rest + 1

/-- The props supplied last by a sequence of updates that started with `p`. -/
def Bar5.lastProps (p : Props) (updates : List Props) : Props :=
  updates.foldl (fun _ q => q) p

/-- A log in which objects of a kind exist one at a time: after each initial
segment of the log at most one is live, and none is live at the moment one is
created. -/
def OneAtATime (kind : Kind) (log : List EngineCall) : Prop :=
  (∀ l, l <+: log → (live kind l).length ≤ 1) ∧
  (∀ l j, l ++ [EngineCall.create kind j] <+: log → live kind l = [])

/-- The engine side of one call of the log, for the object `id` of a kind: the
state is the disposed flag of the object and the number of times its release
routine ran. The body of `dispose` is code of the chart library, not of the
components; `guarded` is the one fact about it that matters here, whether
`dispose` returns at once on an object whose disposed flag is set. The release
routine runs on every other `dispose` call and sets the flag. -/
def releaseStep (guarded : Bool) (kind : Kind) (id : Nat) (st : Bool × Nat) :
    EngineCall → Bool × Nat
  | EngineCall.create _ _ => st
  | EngineCall.dispose k j =>
    if k = kind ∧ j = id then (if guarded && st.1 then st else (true, st.2 + 1))
    else st

/-- The number of times the release routine of an object ran over a log. -/
def releaseRuns (guarded : Bool) (kind : Kind) (id : Nat) (log : List EngineCall) : Nat :=
  (log.foldl (releaseStep guarded kind id) (false, 0)).2

/-- No object of a kind received two `dispose` calls in a log, and none whose
handle is `next` or above received one. -/
def AllOnce (kind : Kind) (log : List EngineCall) (next : Nat) : Prop :=
  (∀ j, disposeCalls kind j log ≤ 1) ∧ ∀ j, next ≤ j → disposeCalls kind j log = 0

/-- The log of a component that owns object `id` of a kind, on an engine whose
next handle is `next`: as `AllOnce`, and the owned object received no `dispose`
call yet. -/
def OwnedOnce (kind : Kind) (log : List EngineCall) (id next : Nat) : Prop :=
  id < next ∧ disposeCalls kind id log = 0 ∧ AllOnce kind log next

/-- The value of a record is a number other than `NaN`. -/
def IsNumberAt (valueField : String) (item : Record) : Prop :=
  ∃ x, item.get valueField = Value.num x ∧ x.isNaN = false

/-- The dataset of the example of the specification:
`[{c:"a",v:5},{c:"b",v:2},{c:"c",v:9}]`. -/
def exampleData : List Record :=
  [ [("c", Value.str "a"), ("v", Value.num (JSNumber.fin 5))],
    [("c", Value.str "b"), ("v", Value.num (JSNumber.fin 2))],
    [("c", Value.str "c"), ("v", Value.num (JSNumber.fin 9))] ]

/-- A record `{c: category, v: q}`. -/
def mkRecord (category : String) (q : ℚ) : Record :=
  [("c", Value.str category), ("v", Value.num (JSNumber.fin q))]

/-- A dataset of 101 records whose smallest value is held by the last one. -/
def minAtEnd : List Record :=
  List.replicate 100 (mkRecord "a" 1) ++ [mkRecord "b" 0]

/-- A dataset of 1000 records. -/
def thousand : List Record :=
  List.replicate 1000 (mkRecord "a" 1)

/-- An oracle under which statement `k` of an effect body raises, and no other. -/
def faultAt (k : Nat) : Nat → Bool := fun j => decide (j = k)

/-- A string conversion for the concrete examples (no example holds a string
in its value field). -/
def noStrings : String → JSNumber := fun _ => JSNumber.nan

/-! ## Lemmas on the JavaScript primitives -/

theorem filterFrom_index_lt {α : Type} (n : Nat) (xs : List α) (k : Nat) :
    filterFrom (fun _item index => decide (index < n)) k xs = xs.take (n - k) := by
  induction xs generalizing k with
  | nil => simp [filterFrom]
  | cons x rest ih =>
    unfold filterFrom
    by_cases h : k < n
    · have e : n - k = (n - (k + 1)) + 1 := by omega
      simp [h, ih, e]
    · have e : n - k = 0 := by omega
      have e1 : n - (k + 1) = 0 := by omega
      simp [h, ih, e, e1]

theorem jsFilter_index_lt {α : Type} (n : Nat) (xs : List α) :
    jsFilter xs (fun _item index => decide (index < n)) = xs.take n := by
  simp [jsFilter, filterFrom_index_lt]

theorem chartData_true (data : List Record) :
    Bar.chartData data true = data.take 100 := by
  simp [Bar.chartData, jsFilter_index_lt]

theorem chartData_false (data : List Record) :
    Bar.chartData data false = data := by
  simp [Bar.chartData]

theorem JSNumber.lt_trans_false (a b c : JSNumber) (hb : b.isNaN = false)
    (h1 : JSNumber.lt b a = false) (h2 : JSNumber.lt c b = false) (ha : a.isNaN = false)
    (hc : c.isNaN = false) : JSNumber.lt c a = false := by
  cases a <;> cases b <;> cases c <;> simp_all [JSNumber.lt, JSNumber.isNaN]
  exact le_trans h1 h2

theorem JSNumber.lt_irrefl (a : JSNumber) : JSNumber.lt a a = false := by
  cases a <;> simp [JSNumber.lt]

theorem JSNumber.lt_asymm_false (a b : JSNumber) (h : JSNumber.lt a b = true) :
    JSNumber.lt b a = false := by
  cases a <;> cases b <;> simp_all [JSNumber.lt]
  exact le_of_lt h

theorem JSNumber.isNaN_of_lt (a b : JSNumber) (h : JSNumber.lt a b = true) :
    a.isNaN = false := by
  cases a <;> cases b <;> simp_all [JSNumber.lt, JSNumber.isNaN]

/-- The loop of `Math.min` on numbers none of which is `NaN`: the result is the
start value or an argument, and neither the start value nor an argument is
smaller. -/
theorem mathMinLoop_spec (xs : List JSNumber) (lowest : JSNumber)
    (hl : lowest.isNaN = false) (hx : ∀ x ∈ xs, x.isNaN = false) :
    (mathMinLoop lowest xs = lowest ∨ mathMinLoop lowest xs ∈ xs) ∧
    (mathMinLoop lowest xs).isNaN = false ∧
    JSNumber.lt lowest (mathMinLoop lowest xs) = false ∧
    ∀ x ∈ xs, JSNumber.lt x (mathMinLoop lowest xs) = false := by
  induction xs generalizing lowest with
  | nil => simp [mathMinLoop, hl, JSNumber.lt_irrefl]
  | cons x rest ih =>
    have hxn : x.isNaN = false := hx x (by simp)
    have hrest : ∀ y ∈ rest, y.isNaN = false := fun y hy => hx y (by simp [hy])
    unfold mathMinLoop
    simp only [hxn, Bool.false_eq_true, if_false]
    by_cases hlt : JSNumber.lt x lowest = true
    · simp only [hlt, if_true]
      obtain ⟨h1, h2, h3, h4⟩ := ih x hxn hrest
      refine ⟨?_, h2, ?_, ?_⟩
      · rcases h1 with h | h
        · right; rw [h]; simp
        · right; simp [h]
      · exact JSNumber.lt_trans_false _ x lowest hxn h3
          (JSNumber.lt_asymm_false _ _ hlt) h2 hl
      · intro y hy
        rcases List.mem_cons.1 hy with h | h
        · rw [h]; exact h3
        · exact h4 y h
    · have hlt2 : JSNumber.lt x lowest = false := by simpa using hlt
      simp only [hlt2, Bool.false_eq_true, if_false]
      obtain ⟨h1, h2, h3, h4⟩ := ih lowest hl hrest
      refine ⟨?_, h2, h3, ?_⟩
      · rcases h1 with h | h
        · left; exact h
        · right; simp [h]
      · intro y hy
        rcases List.mem_cons.1 hy with h | h
        · rw [h]; exact JSNumber.lt_trans_false _ lowest x hl h3 hlt2 h2 hxn
        · exact h4 y h

/-- The call `Math.min` on a non-empty list of numbers none of which is `NaN`
returns one of them, and none of them is smaller. -/
theorem mathMin_spec (xs : List JSNumber) (hne : xs ≠ [])
    (hx : ∀ x ∈ xs, x.isNaN = false) :
    mathMin xs ∈ xs ∧ ∀ x ∈ xs, JSNumber.lt x (mathMin xs) = false := by
  obtain ⟨h1, _, _, h4⟩ := mathMinLoop_spec xs JSNumber.posInf rfl hx
  refine ⟨?_, h4⟩
  rcases h1 with h | h
  · obtain ⟨y, hy⟩ := List.exists_mem_of_ne_nil xs hne
    have hy4 := h4 y hy
    have hyn := hx y hy
    unfold mathMin
    rw [h] at hy4 ⊢
    have : y = JSNumber.posInf := by
      cases y <;> simp_all [JSNumber.lt, JSNumber.isNaN]
    rw [← this]; exact hy
  · exact h

/-! ## Lemmas on the effects -/

theorem attach_noFault {χ : Type} (id : Nat) (steps : List (χ → χ)) (k : Nat)
    (w : World χ) :
    attach noFault id k steps w =
      ({ w with chart := fun j =>
          if j = id then (w.chart j).map (fun c => steps.foldl (fun c f => f c) c)
          else w.chart j }, true) := by
  induction steps generalizing k w with
  | nil =>
    simp only [attach, List.foldl_nil]
    congr 1
    cases w with
    | mk n l c =>
      simp only [World.mk.injEq, true_and]
      funext j
      by_cases h : j = id <;> simp [h]
  | cons s rest ih =>
    simp only [attach, noFault, Bool.false_eq_true, if_false, List.foldl_cons]
    rw [ih]
    congr 1
    cases w with
    | mk n l c =>
      simp only [World.modify, World.mk.injEq, true_and]
      funext j
      by_cases h : j = id
      · simp only [h, if_true, Option.map_map]; rfl
      · simp [h]

theorem attach_next {χ : Type} (fault : Nat → Bool) (id : Nat) (steps : List (χ → χ))
    (k : Nat) (w : World χ) : (attach fault id k steps w).1.next = w.next := by
  induction steps generalizing k w with
  | nil => simp [attach]
  | cons s rest ih =>
    unfold attach
    by_cases h : fault k = true
    · simp [h]
    · simp [h, ih, World.modify]

theorem attach_log {χ : Type} (fault : Nat → Bool) (id : Nat) (steps : List (χ → χ))
    (k : Nat) (w : World χ) : (attach fault id k steps w).1.log = w.log := by
  induction steps generalizing k w with
  | nil => simp [attach]
  | cons s rest ih =>
    unfold attach
    by_cases h : fault k = true
    · simp [h]
    · simp [h, ih, World.modify]

/-- When statement `k0 + i` of the statements run by `attach` raises, no
completion is reported. -/
theorem attach_fault {χ : Type} (fault : Nat → Bool) (id : Nat) (steps : List (χ → χ))
    (k0 : Nat) (w : World χ) (i : Nat) (hi : i < steps.length)
    (hf : fault (k0 + i) = true) : (attach fault id k0 steps w).2 = false := by
  induction steps generalizing k0 w i with
  | nil => simp at hi
  | cons s rest ih =>
    unfold attach
    by_cases h : fault k0 = true
    · simp [h]
    · simp only [h, if_false]
      cases i with
      | zero => simp at hf; exact absurd hf h
      | succ i =>
        apply ih (k0 + 1) _ i
        · simpa using hi
        · rw [← hf]; congr 1; omega

/-- The effect of `Bar` when no statement raises: one chart is created, it
holds the settings of the whole body, and the cleanup disposes of it. -/
theorem Bar.effect_noFault (stringToNumber : String → JSNumber) (p : Props)
    (truncate : Bool) (w : World Bar.XYChart) :
    Bar.effect stringToNumber noFault p truncate w =
      ({ next := w.next + 1
         log := w.log ++ [EngineCall.create Kind.chart w.next]
         chart := fun j =>
           if j = w.next then some (Bar.configured stringToNumber p truncate)
           else w.chart j },
       some (fun w1 => w1.dispose Kind.chart w.next)) := by
  unfold Bar.effect
  simp only [noFault, Bool.false_eq_true, if_false]
  rw [attach_noFault]
  simp only [World.createChart, if_true, Bar.configured]
  congr 2
  funext j
  by_cases h : j = w.next <;> simp [h]

/-- The effect of `Bar5` when no statement raises: a root and a chart are
created, the chart holds the settings of the whole body, and the cleanup
disposes of the chart, then of the root. -/
theorem Bar5.effect5_noFault (p : Props) (w : World Bar5.XYChart) :
    Bar5.effect noFault p w =
      ({ next := w.next + 2
         log := w.log ++ [EngineCall.create Kind.root w.next,
                          EngineCall.create Kind.chart (w.next + 1)]
         chart := fun j =>
           if j = w.next + 1 then some (Bar5.configured p) else w.chart j },
       some (fun w1 => (w1.dispose Kind.chart (w.next + 1)).dispose Kind.root w.next)) := by
  unfold Bar5.effect
  simp only [noFault, Bool.false_eq_true, if_false]
  rw [attach_noFault]
  simp only [World.createChart, World.createRoot, if_true, Bar5.configured,
    List.append_assoc, List.singleton_append]
  congr 2
  funext j
  by_cases h : j = w.next + 1 <;> simp [h]

theorem Bar.configured_data (stringToNumber : String → JSNumber) (p : Props)
    (truncate : Bool) :
    (Bar.configured stringToNumber p truncate).data = Bar.chartData p.data truncate := rfl

theorem Bar.configured_yAxes (stringToNumber : String → JSNumber) (p : Props)
    (truncate : Bool) :
    (Bar.configured stringToNumber p truncate).yAxes.map (fun a => a.min) =
      [some (Bar.minimumValue stringToNumber p.data p.valueField)] := rfl

/-- The minimum `Bar` computes on a non-empty dataset whose values are numbers
(none `NaN`) is the value of a record, and no record of the dataset has a
smaller value. -/
theorem Bar.minimumValue_spec (stringToNumber : String → JSNumber) (data : List Record)
    (valueField : String) (hne : data ≠ [])
    (hnum : ∀ item ∈ data, IsNumberAt valueField item) :
    (∃ item ∈ data,
      item.get valueField = Value.num (Bar.minimumValue stringToNumber data valueField)) ∧
    ∀ item ∈ data, ∀ x, item.get valueField = Value.num x →
      JSNumber.lt x (Bar.minimumValue stringToNumber data valueField) = false := by
  have hne2 : (data.map (fun item => item.get valueField)).map (toNumber stringToNumber) ≠ [] := by
    simpa using hne
  have hx : ∀ x ∈ (data.map (fun item => item.get valueField)).map (toNumber stringToNumber),
      x.isNaN = false := by
    intro x hx
    simp only [List.map_map, List.mem_map, Function.comp] at hx
    obtain ⟨item, hi, rfl⟩ := hx
    obtain ⟨y, hy, hyn⟩ := hnum item hi
    simpa [hy, toNumber] using hyn
  obtain ⟨h1, h2⟩ := mathMin_spec _ hne2 hx
  constructor
  · obtain ⟨v, hv, he⟩ := List.mem_map.1 h1
    obtain ⟨item, hi, rfl⟩ := List.mem_map.1 hv
    refine ⟨item, hi, ?_⟩
    obtain ⟨y, hy, _⟩ := hnum item hi
    rw [hy] at he ⊢
    simp only [toNumber] at he
    unfold Bar.minimumValue
    rw [← he]
  · intro item hi x hxe
    apply h2
    simp only [List.map_map, List.mem_map, Function.comp]
    exact ⟨item, hi, by simp [hxe, toNumber]⟩

theorem Bar.chartData_subset (data : List Record) (truncate : Bool) :
    ∀ item ∈ Bar.chartData data truncate, item ∈ data := by
  intro item h
  cases truncate
  · simpa [chartData_false] using h
  · rw [chartData_true] at h
    exact List.mem_of_mem_take h

theorem mathMinLoop_replicate (q : ℚ) (n : Nat) (ys : List JSNumber) :
    mathMinLoop (JSNumber.fin q) (List.replicate n (JSNumber.fin q) ++ ys)
      = mathMinLoop (JSNumber.fin q) ys := by
  induction n with
  | zero => simp
  | succ n ih =>
    simp only [List.replicate_succ, List.cons_append, mathMinLoop, JSNumber.isNaN,
      JSNumber.lt, lt_self_iff_false, decide_False, Bool.false_eq_true, if_false]
    exact ih

theorem minimumValue_replicate (stringToNumber : String → JSNumber) (a : String) (q : ℚ)
    (n : Nat) (rest : List Record) :
    Bar.minimumValue stringToNumber (List.replicate (n + 1) (mkRecord a q) ++ rest) "v"
      = mathMinLoop (JSNumber.fin q)
          ((rest.map (fun item => item.get "v")).map (toNumber stringToNumber)) := by
  have hl : ((List.replicate (n + 1) (mkRecord a q) ++ rest).map
        (fun item => item.get "v")).map (toNumber stringToNumber)
      = JSNumber.fin q :: (List.replicate n (JSNumber.fin q)
          ++ (rest.map (fun item => item.get "v")).map (toNumber stringToNumber)) := by
    have h : toNumber stringToNumber (Record.get (mkRecord a q) "v") = JSNumber.fin q := rfl
    rw [List.replicate_succ, List.cons_append, List.map_cons, List.map_cons, List.map_append,
      List.map_append, List.map_replicate, List.map_replicate, h]
  unfold Bar.minimumValue mathMin
  rw [hl]
  simp only [mathMinLoop, JSNumber.isNaN, JSNumber.lt, Bool.false_eq_true, if_false, if_true]
  exact mathMinLoop_replicate q n _

/-! ## Lemmas on logs -/

theorem live_snoc (kind : Kind) (log : List EngineCall) (c : EngineCall) :
    live kind (log ++ [c]) = liveStep kind (live kind log) c := by
  simp [live, List.foldl_append]

theorem OneAtATime.nil (kind : Kind) : OneAtATime kind [] := by
  constructor
  · intro l hl
    have : l = [] := List.prefix_nil.1 hl
    subst this
    simp [live]
  · intro l j hl
    have : l ++ [EngineCall.create kind j] = [] := List.prefix_nil.1 hl
    simp at this

theorem OneAtATime.snoc {kind : Kind} {log : List EngineCall} (h : OneAtATime kind log)
    (c : EngineCall) (hlen : (liveStep kind (live kind log) c).length ≤ 1)
    (hcr : ∀ j, c = EngineCall.create kind j → live kind log = []) :
    OneAtATime kind (log ++ [c]) := by
  constructor
  · intro l hl
    rcases List.prefix_concat_iff.1 hl with e | hp
    · rw [e, live_snoc]; exact hlen
    · exact h.1 l hp
  · intro l j hl
    rcases List.prefix_concat_iff.1 hl with e | hp
    · have e2 := List.append_inj' e rfl
      rw [e2.1]
      apply hcr j
      simpa using e2.2.symm
    · exact h.2 l j hp

theorem OneAtATime.length_le {kind : Kind} {log : List EngineCall}
    (h : OneAtATime kind log) : (live kind log).length ≤ 1 :=
  h.1 log (List.prefix_refl log)

theorem OneAtATime.snoc_dispose {kind : Kind} {log : List EngineCall}
    (h : OneAtATime kind log) (k : Kind) (j : Nat) :
    OneAtATime kind (log ++ [EngineCall.dispose k j]) := by
  apply h.snoc
  · simp only [liveStep]
    split
    · exact le_trans (List.length_filter_le _ _) h.length_le
    · exact h.length_le
  · intro i hi; cases hi

theorem OneAtATime.snoc_create_other {kind : Kind} {log : List EngineCall}
    (h : OneAtATime kind log) (k : Kind) (j : Nat) (hk : k ≠ kind) :
    OneAtATime kind (log ++ [EngineCall.create k j]) := by
  apply h.snoc
  · simp only [liveStep, hk, if_false]
    exact h.length_le
  · intro i hi
    injection hi with h1 _
    exact absurd h1 hk

theorem OneAtATime.snoc_create {kind : Kind} {log : List EngineCall}
    (h : OneAtATime kind log) (j : Nat) (hl : live kind log = []) :
    OneAtATime kind (log ++ [EngineCall.create kind j]) := by
  apply h.snoc
  · simp [liveStep, hl]
  · intro _ _; exact hl

theorem creates_snoc_create (kind : Kind) (log : List EngineCall) (j : Nat) :
    creates kind (log ++ [EngineCall.create kind j]) = creates kind log + 1 := by
  simp [creates, List.countP_append]

theorem creates_snoc_other (kind k : Kind) (log : List EngineCall) (j : Nat) (hk : k ≠ kind) :
    creates kind (log ++ [EngineCall.create k j]) = creates kind log := by
  simp [creates, List.countP_append, hk]

theorem creates_snoc_dispose (kind k : Kind) (log : List EngineCall) (j : Nat) :
    creates kind (log ++ [EngineCall.dispose k j]) = creates kind log := by
  simp [creates, List.countP_append]

theorem disposes_snoc_dispose (kind : Kind) (log : List EngineCall) (j : Nat) :
    disposes kind (log ++ [EngineCall.dispose kind j]) = disposes kind log + 1 := by
  simp [disposes, List.countP_append]

theorem disposes_snoc_other (kind k : Kind) (log : List EngineCall) (j : Nat) (hk : k ≠ kind) :
    disposes kind (log ++ [EngineCall.dispose k j]) = disposes kind log := by
  simp [disposes, List.countP_append, hk]

theorem disposes_snoc_create (kind k : Kind) (log : List EngineCall) (j : Nat) :
    disposes kind (log ++ [EngineCall.create k j]) = disposes kind log := by
  simp [disposes, List.countP_append]

/-- One update of a component that owns one object of a kind: the live object
is disposed of, then its successor is created. -/
theorem log_update (kind : Kind) (log : List EngineCall) (id id1 : Nat)
    (hl : live kind log = [id]) (ho : OneAtATime kind log) :
    live kind (log ++ [EngineCall.dispose kind id] ++ [EngineCall.create kind id1]) = [id1] ∧
    OneAtATime kind (log ++ [EngineCall.dispose kind id] ++ [EngineCall.create kind id1]) ∧
    creates kind (log ++ [EngineCall.dispose kind id] ++ [EngineCall.create kind id1])
      = creates kind log + 1 ∧
    disposes kind (log ++ [EngineCall.dispose kind id] ++ [EngineCall.create kind id1])
      = disposes kind log + 1 := by
  have h1 : live kind (log ++ [EngineCall.dispose kind id]) = [] := by
    rw [live_snoc, hl]; simp [liveStep]
  refine ⟨?_, ?_, ?_, ?_⟩
  · rw [live_snoc, h1]; simp [liveStep]
  · exact (ho.snoc_dispose kind id).snoc_create id1 h1
  · rw [creates_snoc_create, creates_snoc_dispose]
  · rw [disposes_snoc_create, disposes_snoc_dispose]

/-! ## Lemmas on the lifecycle of `Bar` -/

theorem Bar.button_flips (truncate : Bool) : (Bar.button truncate).onClick = !truncate := by
  cases truncate <;> rfl

theorem Bar.mount_noFault (stringToNumber : String → JSNumber) (p : Props) :
    (Bar.mount stringToNumber noFault p).props = p ∧
    (Bar.mount stringToNumber noFault p).truncate = false ∧
    (Bar.mount stringToNumber noFault p).cleanup
      = some (fun w1 => w1.dispose Kind.chart 0) ∧
    (Bar.mount stringToNumber noFault p).world.log = [EngineCall.create Kind.chart 0] ∧
    (Bar.mount stringToNumber noFault p).world.chart 0
      = some (Bar.configured stringToNumber p false) := by
  unfold Bar.mount
  rw [Bar.effect_noFault]
  exact ⟨rfl, rfl, rfl, rfl, rfl⟩

theorem Bar.rerun_spec (stringToNumber : String → JSNumber) (st : Bar.State) (p : Props)
    (truncate : Bool) (id : Nat)
    (hc : st.cleanup = some (fun w1 => w1.dispose Kind.chart id)) :
    (Bar.rerun stringToNumber st p truncate).props = p ∧
    (Bar.rerun stringToNumber st p truncate).truncate = truncate ∧
    (Bar.rerun stringToNumber st p truncate).cleanup
      = some (fun w1 => w1.dispose Kind.chart st.world.next) ∧
    (Bar.rerun stringToNumber st p truncate).world.log
      = st.world.log ++ [EngineCall.dispose Kind.chart id]
          ++ [EngineCall.create Kind.chart st.world.next] ∧
    (Bar.rerun stringToNumber st p truncate).world.chart st.world.next
      = some (Bar.configured stringToNumber p truncate) := by
  unfold Bar.rerun
  rw [Bar.effect_noFault, hc]
  simp [runCleanup, World.dispose]

theorem odd_succ (n : Nat) : decide ((n + 1) % 2 = 1) = !decide (n % 2 = 1) := by
  rcases Nat.mod_two_eq_zero_or_one n with h | h
  · have : (n + 1) % 2 = 1 := by omega
    simp [h, this]
  · have : (n + 1) % 2 = 0 := by omega
    simp [h, this]

/-- The invariant of the lifecycle of `Bar`: from a state that owns one live
chart, any sequence of events leads to a state that owns one live chart, built
from the props supplied last and the current `truncate`; each event adds one
`dispose` and one `create` call, and charts exist one at a time. -/
theorem Bar.run_invariant (stringToNumber : String → JSNumber) (events : List Bar.Event)
    (st : Bar.State) (id : Nat)
    (hc : st.cleanup = some (fun w1 => w1.dispose Kind.chart id))
    (hl : live Kind.chart st.world.log = [id])
    (ho : OneAtATime Kind.chart st.world.log)
    (hch : st.world.chart id = some (Bar.configured stringToNumber st.props st.truncate)) :
    ∃ id1,
      (Bar.run stringToNumber st events).cleanup
        = some (fun w1 => w1.dispose Kind.chart id1) ∧
      live Kind.chart (Bar.run stringToNumber st events).world.log = [id1] ∧
      OneAtATime Kind.chart (Bar.run stringToNumber st events).world.log ∧
      (Bar.run stringToNumber st events).world.chart id1
        = some (Bar.configured stringToNumber (Bar.run stringToNumber st events).props
            (Bar.run stringToNumber st events).truncate) ∧
      (Bar.run stringToNumber st events).props = Bar.lastProps st.props events ∧
      (Bar.run stringToNumber st events).truncate
        = (st.truncate != decide (Bar.clicks events % 2 = 1)) ∧
      creates Kind.chart (Bar.run stringToNumber st events).world.log
        = creates Kind.chart st.world.log + events.length ∧
      disposes Kind.chart (Bar.run stringToNumber st events).world.log
        = disposes Kind.chart st.world.log + events.length := by
  induction events generalizing st id with
  | nil =>
    refine ⟨id, hc, hl, ho, hch, rfl, ?_, rfl, rfl⟩
    simp [Bar.run, Bar.clicks]
  | cons e rest ih =>
    have hrun : Bar.run stringToNumber st (e :: rest)
        = Bar.run stringToNumber (Bar.step stringToNumber st e) rest := rfl
    rw [hrun]
    cases e with
    | setProps q =>
      obtain ⟨r1, r2, r3, r4, r5⟩ := Bar.rerun_spec stringToNumber st q st.truncate id hc
      obtain ⟨l1, l2, l3, l4⟩ := log_update Kind.chart st.world.log id st.world.next hl ho
      have hstep : Bar.step stringToNumber st (Bar.Event.setProps q)
          = Bar.rerun stringToNumber st q st.truncate := rfl
      rw [hstep]
      rw [← r4] at l1 l2 l3 l4
      obtain ⟨id1, a1, a2, a3, a4, a5, a6, a7, a8⟩ :=
        ih (Bar.rerun stringToNumber st q st.truncate) st.world.next r3 l1 l2
          (by rw [r5, r1, r2])
      refine ⟨id1, a1, a2, a3, a4, ?_, ?_, ?_, ?_⟩
      · rw [a5, r1]; rfl
      · rw [a6, r2]; rfl
      · rw [a7, l3, List.length_cons]; omega
      · rw [a8, l4, List.length_cons]; omega
    | click =>
      obtain ⟨r1, r2, r3, r4, r5⟩ :=
        Bar.rerun_spec stringToNumber st st.props (!st.truncate) id hc
      obtain ⟨l1, l2, l3, l4⟩ := log_update Kind.chart st.world.log id st.world.next hl ho
      have hstep : Bar.step stringToNumber st Bar.Event.click
          = Bar.rerun stringToNumber st st.props (!st.truncate) := by
        simp only [Bar.step, Bar.button_flips]
        cases st.truncate <;> simp
      rw [hstep]
      rw [← r4] at l1 l2 l3 l4
      obtain ⟨id1, a1, a2, a3, a4, a5, a6, a7, a8⟩ :=
        ih (Bar.rerun stringToNumber st st.props (!st.truncate)) st.world.next r3 l1 l2
          (by rw [r5, r1, r2])
      refine ⟨id1, a1, a2, a3, a4, ?_, ?_, ?_, ?_⟩
      · rw [a5, r1]; rfl
      · rw [a6, r2]
        simp only [Bar.clicks, odd_succ]
        cases st.truncate <;> cases decide (Bar.clicks rest % 2 = 1) <;> rfl
      · rw [a7, l3, List.length_cons]; omega
      · rw [a8, l4, List.length_cons]; omega

/-! ## Lemmas on the lifecycle of `Bar5` -/

theorem Bar5.mount5_noFault (p : Props) :
    (Bar5.mount noFault p).props = p ∧
    (Bar5.mount noFault p).cleanup
      = some (fun w1 => (w1.dispose Kind.chart 1).dispose Kind.root 0) ∧
    (Bar5.mount noFault p).world.log
      = [EngineCall.create Kind.root 0, EngineCall.create Kind.chart 1] ∧
    (Bar5.mount noFault p).world.chart 1 = some (Bar5.configured p) := by
  unfold Bar5.mount
  rw [Bar5.effect5_noFault]
  exact ⟨rfl, rfl, rfl, rfl⟩

theorem Bar5.step_spec (st : Bar5.State) (p : Props) (chart root : Nat)
    (hc : st.cleanup
      = some (fun w1 => (w1.dispose Kind.chart chart).dispose Kind.root root)) :
    (Bar5.step st p).props = p ∧
    (Bar5.step st p).cleanup
      = some (fun w1 =>
          (w1.dispose Kind.chart (st.world.next + 1)).dispose Kind.root st.world.next) ∧
    (Bar5.step st p).world.log
      = st.world.log ++ [EngineCall.dispose Kind.chart chart]
          ++ [EngineCall.dispose Kind.root root]
          ++ [EngineCall.create Kind.root st.world.next]
          ++ [EngineCall.create Kind.chart (st.world.next + 1)] ∧
    (Bar5.step st p).world.chart (st.world.next + 1) = some (Bar5.configured p) := by
  unfold Bar5.step
  rw [Bar5.effect5_noFault, hc]
  simp [runCleanup, World.dispose]

/-- One update of `Bar5` on the log: chart and root are disposed of, then a
root and a chart are created. -/
theorem log_update5 (log : List EngineCall) (chart root n m : Nat)
    (hlc : live Kind.chart log = [chart]) (hlr : live Kind.root log = [root])
    (hoc : OneAtATime Kind.chart log) (hor : OneAtATime Kind.root log) :
    live Kind.chart (log ++ [EngineCall.dispose Kind.chart chart]
      ++ [EngineCall.dispose Kind.root root] ++ [EngineCall.create Kind.root n]
      ++ [EngineCall.create Kind.chart m]) = [m] ∧
    live Kind.root (log ++ [EngineCall.dispose Kind.chart chart]
      ++ [EngineCall.dispose Kind.root root] ++ [EngineCall.create Kind.root n]
      ++ [EngineCall.create Kind.chart m]) = [n] ∧
    OneAtATime Kind.chart (log ++ [EngineCall.dispose Kind.chart chart]
      ++ [EngineCall.dispose Kind.root root] ++ [EngineCall.create Kind.root n]
      ++ [EngineCall.create Kind.chart m]) ∧
    OneAtATime Kind.root (log ++ [EngineCall.dispose Kind.chart chart]
      ++ [EngineCall.dispose Kind.root root] ++ [EngineCall.create Kind.root n]
      ++ [EngineCall.create Kind.chart m]) ∧
    (∀ kind, creates kind (log ++ [EngineCall.dispose Kind.chart chart]
      ++ [EngineCall.dispose Kind.root root] ++ [EngineCall.create Kind.root n]
      ++ [EngineCall.create Kind.chart m]) = creates kind log + 1) ∧
    (∀ kind, disposes kind (log ++ [EngineCall.dispose Kind.chart chart]
      ++ [EngineCall.dispose Kind.root root] ++ [EngineCall.create Kind.root n]
      ++ [EngineCall.create Kind.chart m]) = disposes kind log + 1) := by
  have hne : Kind.root ≠ Kind.chart := by decide
  have hne2 : Kind.chart ≠ Kind.root := by decide
  have c1 : live Kind.chart (log ++ [EngineCall.dispose Kind.chart chart]) = [] := by
    rw [live_snoc, hlc]; simp [liveStep]
  have c2 : live Kind.chart (log ++ [EngineCall.dispose Kind.chart chart]
      ++ [EngineCall.dispose Kind.root root]) = [] := by
    rw [live_snoc, c1]; simp [liveStep]
  have c3 : live Kind.chart (log ++ [EngineCall.dispose Kind.chart chart]
      ++ [EngineCall.dispose Kind.root root] ++ [EngineCall.create Kind.root n]) = [] := by
    rw [live_snoc, c2]; simp [liveStep]
  have r1 : live Kind.root (log ++ [EngineCall.dispose Kind.chart chart]) = [root] := by
    rw [live_snoc, hlr]; simp [liveStep]
  have r2 : live Kind.root (log ++ [EngineCall.dispose Kind.chart chart]
      ++ [EngineCall.dispose Kind.root root]) = [] := by
    rw [live_snoc, r1]; simp [liveStep]
  have r3 : live Kind.root (log ++ [EngineCall.dispose Kind.chart chart]
      ++ [EngineCall.dispose Kind.root root] ++ [EngineCall.create Kind.root n]) = [n] := by
    rw [live_snoc, r2]; simp [liveStep]
  refine ⟨?_, ?_, ?_, ?_, ?_, ?_⟩
  · rw [live_snoc, c3]; simp [liveStep]
  · rw [live_snoc, r3]; simp [liveStep]
  · exact (((hoc.snoc_dispose Kind.chart chart).snoc_dispose Kind.root root).snoc_create_other
      Kind.root n hne).snoc_create m c3
  · exact (((hor.snoc_dispose Kind.chart chart).snoc_dispose Kind.root root).snoc_create
      n r2).snoc_create_other Kind.chart m hne2
  · intro kind
    cases kind
    · rw [creates_snoc_create, creates_snoc_other _ _ _ _ hne, creates_snoc_dispose,
        creates_snoc_dispose]
    · rw [creates_snoc_other _ _ _ _ hne2, creates_snoc_create, creates_snoc_dispose,
        creates_snoc_dispose]
  · intro kind
    cases kind
    · rw [disposes_snoc_create, disposes_snoc_create, disposes_snoc_other _ _ _ _ hne,
        disposes_snoc_dispose]
    · rw [disposes_snoc_create, disposes_snoc_create, disposes_snoc_dispose,
        disposes_snoc_other _ _ _ _ hne2]

/-- The invariant of the lifecycle of `Bar5`: from a state that owns one live
root and one live chart, any sequence of updates leads to such a state, the
chart built from the props supplied last; each update adds one `dispose` and
one `create` call per kind, and roots and charts exist one at a time. -/
theorem Bar5.run5_invariant (updates : List Props) (st : Bar5.State) (chart root : Nat)
    (hc : st.cleanup
      = some (fun w1 => (w1.dispose Kind.chart chart).dispose Kind.root root))
    (hlc : live Kind.chart st.world.log = [chart])
    (hlr : live Kind.root st.world.log = [root])
    (hoc : OneAtATime Kind.chart st.world.log) (hor : OneAtATime Kind.root st.world.log)
    (hch : st.world.chart chart = some (Bar5.configured st.props)) :
    ∃ chart1 root1,
      (Bar5.run st updates).cleanup
        = some (fun w1 => (w1.dispose Kind.chart chart1).dispose Kind.root root1) ∧
      live Kind.chart (Bar5.run st updates).world.log = [chart1] ∧
      live Kind.root (Bar5.run st updates).world.log = [root1] ∧
      OneAtATime Kind.chart (Bar5.run st updates).world.log ∧
      OneAtATime Kind.root (Bar5.run st updates).world.log ∧
      (Bar5.run st updates).world.chart chart1
        = some (Bar5.configured (Bar5.run st updates).props) ∧
      (Bar5.run st updates).props = Bar5.lastProps st.props updates ∧
      (∀ kind, creates kind (Bar5.run st updates).world.log
        = creates kind st.world.log + updates.length) ∧
      (∀ kind, disposes kind (Bar5.run st updates).world.log
        = disposes kind st.world.log + updates.length) := by
  induction updates generalizing st chart root with
  | nil =>
    exact ⟨chart, root, hc, hlc, hlr, hoc, hor, hch, rfl, fun _ => rfl, fun _ => rfl⟩
  | cons q rest ih =>
    have hrun : Bar5.run st (q :: rest) = Bar5.run (Bar5.step st q) rest := rfl
    rw [hrun]
    obtain ⟨r1, r2, r3, r4⟩ := Bar5.step_spec st q chart root hc
    obtain ⟨l1, l2, l3, l4, l5, l6⟩ :=
      log_update5 st.world.log chart root st.world.next (st.world.next + 1) hlc hlr hoc hor
    rw [← r3] at l1 l2 l3 l4 l5 l6
    obtain ⟨c1, n1, a1, a2, a3, a4, a5, a6, a7, a8, a9⟩ :=
      ih (Bar5.step st q) (st.world.next + 1) st.world.next r2 l1 l2 l3 l4 (by rw [r4, r1])
    refine ⟨c1, n1, a1, a2, a3, a4, a5, a6, ?_, ?_, ?_⟩
    · rw [a7, r1]; rfl
    · intro kind; rw [a8, l5, List.length_cons]; omega
    · intro kind; rw [a9, l6, List.length_cons]; omega

/-! ## Lemmas on effects that raise -/

theorem Bar.effect_fault (stringToNumber : String → JSNumber) (fault : Nat → Bool)
    (p : Props) (truncate : Bool) (w : World Bar.XYChart) (k : Nat)
    (h0 : fault 0 = false) (hk1 : 1 ≤ k) (hk9 : k ≤ 9) (hk : fault k = true) :
    (Bar.effect stringToNumber fault p truncate w).2 = none ∧
    (Bar.effect stringToNumber fault p truncate w).1.log
      = w.log ++ [EngineCall.create Kind.chart w.next] := by
  unfold Bar.effect
  simp only [h0, Bool.false_eq_true, if_false]
  constructor
  · rw [attach_fault fault _ _ 1 _ (k - 1) (by simp [Bar.steps]; omega)
      (by rw [← hk]; congr 1; omega)]
    simp
  · rw [attach_log]; rfl

theorem Bar5.effect5_fault (fault : Nat → Bool) (p : Props) (w : World Bar5.XYChart)
    (k : Nat) (h0 : fault 0 = false) (hk1 : 1 ≤ k) (hk11 : k ≤ 11) (hk : fault k = true) :
    (Bar5.effect fault p w).2 = none ∧
    (Bar5.effect fault p w).1.log
      = (if fault 1 || fault 2 then w.log ++ [EngineCall.create Kind.root w.next]
         else w.log ++ [EngineCall.create Kind.root w.next,
                        EngineCall.create Kind.chart (w.next + 1)]) := by
  unfold Bar5.effect
  simp only [h0, Bool.false_eq_true, if_false]
  by_cases h1 : fault 1 = true
  · simp [h1, World.createRoot]
  · by_cases h2 : fault 2 = true
    · simp [h1, h2, World.createRoot]
    · have hk3 : 3 ≤ k := by
        rcases Nat.lt_or_ge k 3 with h | h
        · have : k = 1 ∨ k = 2 := by omega
          rcases this with e | e <;> subst e
          · exact absurd hk h1
          · exact absurd hk h2
        · exact h
      simp only [h1, h2, if_false, Bool.or_self, Bool.false_eq_true]
      constructor
      · rw [attach_fault fault _ _ 3 _ (k - 3) (by simp [Bar5.steps]; omega)
          (by rw [← hk]; congr 1; omega)]
        simp
      · rw [attach_log]
        simp [World.createChart, World.createRoot]

theorem disposeCalls_snoc (kind : Kind) (id : Nat) (log : List EngineCall) (c : EngineCall) :
    disposeCalls kind id (log ++ [c])
      = disposeCalls kind id log + (if c = EngineCall.dispose kind id then 1 else 0) := by
  simp only [disposeCalls, List.count_append, List.count_singleton, beq_iff_eq]

/-! ## Lemmas on the release routine -/

/-- The engine side of a log in terms of the `dispose` calls an object received:
the flag is set once a call was made, and the release routine ran once per call,
or once in all when `dispose` is guarded. -/
theorem releaseState_eq (guarded : Bool) (kind : Kind) (id : Nat) (log : List EngineCall) :
    log.foldl (releaseStep guarded kind id) (false, 0)
      = (decide (0 < disposeCalls kind id log),
         if guarded then min (disposeCalls kind id log) 1 else disposeCalls kind id log) := by
  induction log using List.reverseRecOn with
  | nil => cases guarded <;> simp [disposeCalls]
  | append_singleton l c ih =>
    rw [List.foldl_append, ih, disposeCalls_snoc]
    simp only [List.foldl_cons, List.foldl_nil]
    cases c with
    | create k j => simp [releaseStep]
    | dispose k j =>
      by_cases h : k = kind ∧ j = id
      · obtain ⟨h1, h2⟩ := h
        subst h1 h2
        simp only [releaseStep, and_self, if_true]
        cases guarded
        · simp
        · by_cases hz : disposeCalls k j l = 0
          · simp [hz]
          · have hpos : 0 < disposeCalls k j l := Nat.pos_of_ne_zero hz
            simp [hpos]
            omega
      · have hne : ¬ (EngineCall.dispose k j = EngineCall.dispose kind id) := by
          intro e
          injection e with e1 e2
          exact h ⟨e1, e2⟩
        simp [releaseStep, h, hne]

theorem releaseRuns_le_calls (guarded : Bool) (kind : Kind) (id : Nat)
    (log : List EngineCall) :
    releaseRuns guarded kind id log ≤ disposeCalls kind id log := by
  unfold releaseRuns
  rw [releaseState_eq]
  cases guarded
  · simp
  · simp only [if_true]
    exact Nat.min_le_left _ _

theorem releaseRuns_guarded (kind : Kind) (id : Nat) (log : List EngineCall) :
    releaseRuns true kind id log = min (disposeCalls kind id log) 1 := by
  unfold releaseRuns
  rw [releaseState_eq]
  simp

theorem AllOnce.snoc_other {kind : Kind} {log : List EngineCall} {next : Nat}
    (h : AllOnce kind log next) (c : EngineCall)
    (hc : ∀ j, c ≠ EngineCall.dispose kind j) : AllOnce kind (log ++ [c]) next := by
  constructor
  · intro j
    rw [disposeCalls_snoc, if_neg (hc j)]
    exact h.1 j
  · intro j hj
    rw [disposeCalls_snoc, if_neg (hc j)]
    exact h.2 j hj

theorem OwnedOnce.snoc_kept {kind : Kind} {log : List EngineCall} {id next : Nat}
    (h : OwnedOnce kind log id next) (c : EngineCall)
    (hc : ∀ j, c ≠ EngineCall.dispose kind j) : OwnedOnce kind (log ++ [c]) id next := by
  refine ⟨h.1, ?_, h.2.2.snoc_other c hc⟩
  rw [disposeCalls_snoc, if_neg (hc id)]
  exact h.2.1

/-- The owned object is disposed of: still no object received two calls. -/
theorem OwnedOnce.dispose_own {kind : Kind} {log : List EngineCall} {id next : Nat}
    (h : OwnedOnce kind log id next) :
    AllOnce kind (log ++ [EngineCall.dispose kind id]) next := by
  obtain ⟨hlt, h0, h1, h2⟩ := h
  constructor
  · intro j
    rw [disposeCalls_snoc]
    by_cases e : j = id
    · subst e; simp [h0]
    · have hne : ¬ (EngineCall.dispose kind id = EngineCall.dispose kind j) := by
        intro e1
        injection e1 with _ e2
        exact e e2.symm
      rw [if_neg hne]
      exact h1 j
  · intro j hj
    rw [disposeCalls_snoc]
    have hne : ¬ (EngineCall.dispose kind id = EngineCall.dispose kind j) := by
      intro e1
      injection e1 with _ e2
      omega
    rw [if_neg hne]
    exact h2 j hj

/-- An object created with a handle `next` or above is owned with no call. -/
theorem AllOnce.own {kind : Kind} {log : List EngineCall} {next : Nat}
    (h : AllOnce kind log next) (id next1 : Nat) (h1 : next ≤ id) (h2 : id < next1) :
    OwnedOnce kind log id next1 :=
  ⟨h2, h.2 id h1, h.1, fun j hj => h.2 j (by omega)⟩

theorem AllOnce.releaseRuns_le {kind : Kind} {log : List EngineCall} {next : Nat}
    (h : AllOnce kind log next) (guarded : Bool) (id : Nat) :
    releaseRuns guarded kind id log ≤ 1 :=
  le_trans (releaseRuns_le_calls guarded kind id log) (h.1 id)

theorem live_update (kind : Kind) (log : List EngineCall) (id id1 : Nat)
    (hl : live kind log = [id]) :
    live kind (log ++ [EngineCall.dispose kind id]) = [] ∧
    live kind (log ++ [EngineCall.dispose kind id] ++ [EngineCall.create kind id1])
      = [id1] := by
  have h1 : live kind (log ++ [EngineCall.dispose kind id]) = [] := by
    rw [live_snoc, hl]; simp [liveStep]
  refine ⟨h1, ?_⟩
  rw [live_snoc, h1]; simp [liveStep]

theorem live_snoc_other (kind k : Kind) (log : List EngineCall) (hk : k ≠ kind) (j : Nat) :
    live kind (log ++ [EngineCall.create k j]) = live kind log ∧
    live kind (log ++ [EngineCall.dispose k j]) = live kind log := by
  constructor <;> rw [live_snoc] <;> simp [liveStep, hk]

/-- A guarded `dispose` called again on the same object changes nothing on the
engine side: the objects live and the runs of every release routine after
`n + 1` calls are those after one call. -/
theorem iterate_dispose_engine {χ : Type} (k : Kind) (id : Nat) (n : Nat) (w : World χ)
    (kind : Kind) (j : Nat) :
    live kind ((fun w1 : World χ => w1.dispose k id)^[n + 1] w).log
      = live kind (w.dispose k id).log ∧
    releaseRuns true kind j ((fun w1 : World χ => w1.dispose k id)^[n + 1] w).log
      = releaseRuns true kind j (w.dispose k id).log := by
  induction n with
  | zero => exact ⟨rfl, rfl⟩
  | succ n ih =>
    obtain ⟨i1, i2⟩ := ih
    have hlog : ∀ w1 : World χ, (w1.dispose k id).log
        = w1.log ++ [EngineCall.dispose k id] := fun _ => rfl
    rw [Function.iterate_succ_apply', hlog]
    constructor
    · rw [live_snoc, i1, hlog, live_snoc]
      simp only [liveStep]
      split
      · simp [List.filter_filter]
      · rfl
    · simp only [releaseRuns_guarded, hlog, disposeCalls_snoc] at i2 ⊢
      split_ifs at i2 ⊢ <;> omega

/-- The cleanup of `Bar5` invoked again changes nothing on the engine side when
`dispose` is guarded. -/
theorem iterate_dispose2_engine {χ : Type} (chart root : Nat) (n : Nat) (w : World χ)
    (kind : Kind) (j : Nat) :
    live kind ((fun w1 : World χ =>
        (w1.dispose Kind.chart chart).dispose Kind.root root)^[n + 1] w).log
      = live kind ((w.dispose Kind.chart chart).dispose Kind.root root).log ∧
    releaseRuns true kind j ((fun w1 : World χ =>
        (w1.dispose Kind.chart chart).dispose Kind.root root)^[n + 1] w).log
      = releaseRuns true kind j ((w.dispose Kind.chart chart).dispose Kind.root root).log := by
  induction n with
  | zero => exact ⟨rfl, rfl⟩
  | succ n ih =>
    obtain ⟨i1, i2⟩ := ih
    have hlog : ∀ w1 : World χ, ((w1.dispose Kind.chart chart).dispose Kind.root root).log
        = w1.log ++ [EngineCall.dispose Kind.chart chart]
            ++ [EngineCall.dispose Kind.root root] := fun _ => rfl
    rw [Function.iterate_succ_apply', hlog]
    constructor
    · rw [live_snoc, live_snoc, i1, hlog, live_snoc, live_snoc]
      cases kind <;> simp [liveStep, List.filter_filter]
    · simp only [releaseRuns_guarded, hlog, disposeCalls_snoc] at i2 ⊢
      split_ifs at i2 ⊢ <;> omega

/-! ## Lemmas on the `dispose` calls of a lifecycle -/

theorem Bar.mount_next (stringToNumber : String → JSNumber) (p : Props) :
    (Bar.mount stringToNumber noFault p).world.next = 1 := by
  unfold Bar.mount
  rw [Bar.effect_noFault]
  rfl

theorem Bar.rerun_next (stringToNumber : String → JSNumber) (st : Bar.State) (p : Props)
    (truncate : Bool) (id : Nat)
    (hc : st.cleanup = some (fun w1 => w1.dispose Kind.chart id)) :
    (Bar.rerun stringToNumber st p truncate).world.next = st.world.next + 1 := by
  unfold Bar.rerun
  rw [Bar.effect_noFault, hc]
  simp [runCleanup, World.dispose]

/-- Over any sequence of events `Bar` keeps owning one live chart that received
no `dispose` call, and no chart received two. -/
theorem Bar.run_once (stringToNumber : String → JSNumber) (events : List Bar.Event)
    (st : Bar.State) (id : Nat)
    (hc : st.cleanup = some (fun w1 => w1.dispose Kind.chart id))
    (hl : live Kind.chart st.world.log = [id])
    (ho : OwnedOnce Kind.chart st.world.log id st.world.next) :
    ∃ id1,
      (Bar.run stringToNumber st events).cleanup
        = some (fun w1 => w1.dispose Kind.chart id1) ∧
      live Kind.chart (Bar.run stringToNumber st events).world.log = [id1] ∧
      OwnedOnce Kind.chart (Bar.run stringToNumber st events).world.log id1
        (Bar.run stringToNumber st events).world.next := by
  induction events generalizing st id with
  | nil => exact ⟨id, hc, hl, ho⟩
  | cons e rest ih =>
    have hrun : Bar.run stringToNumber st (e :: rest)
        = Bar.run stringToNumber (Bar.step stringToNumber st e) rest := rfl
    rw [hrun]
    have key : ∀ q t, ∃ id1,
        (Bar.rerun stringToNumber st q t).cleanup
          = some (fun w1 => w1.dispose Kind.chart id1) ∧
        live Kind.chart (Bar.rerun stringToNumber st q t).world.log = [id1] ∧
        OwnedOnce Kind.chart (Bar.rerun stringToNumber st q t).world.log id1
          (Bar.rerun stringToNumber st q t).world.next := by
      intro q t
      obtain ⟨_, _, r3, r4, _⟩ := Bar.rerun_spec stringToNumber st q t id hc
      refine ⟨st.world.next, r3, ?_, ?_⟩
      · rw [r4]; exact (live_update Kind.chart _ id _ hl).2
      · rw [r4, Bar.rerun_next stringToNumber st q t id hc]
        exact (ho.dispose_own.snoc_other _ (fun j h => by cases h)).own _ _ (le_refl _)
          (Nat.lt_succ_self _)
    cases e with
    | setProps q =>
      obtain ⟨id1, k1, k2, k3⟩ := key q st.truncate
      exact ih (Bar.rerun stringToNumber st q st.truncate) id1 k1 k2 k3
    | click =>
      have hstep : Bar.step stringToNumber st Bar.Event.click
          = Bar.rerun stringToNumber st st.props (!st.truncate) := by
        simp only [Bar.step, Bar.button_flips]
        cases st.truncate <;> simp
      rw [hstep]
      obtain ⟨id1, k1, k2, k3⟩ := key st.props (!st.truncate)
      exact ih (Bar.rerun stringToNumber st st.props (!st.truncate)) id1 k1 k2 k3

theorem Bar5.mount5_next (p : Props) : (Bar5.mount noFault p).world.next = 2 := by
  unfold Bar5.mount
  rw [Bar5.effect5_noFault]
  rfl

theorem Bar5.step_next (st : Bar5.State) (p : Props) (chart root : Nat)
    (hc : st.cleanup
      = some (fun w1 => (w1.dispose Kind.chart chart).dispose Kind.root root)) :
    (Bar5.step st p).world.next = st.world.next + 2 := by
  unfold Bar5.step
  rw [Bar5.effect5_noFault, hc]
  simp [runCleanup, World.dispose]

/-- Over any sequence of updates `Bar5` keeps owning one live chart and one live
root that received no `dispose` call, and no object received two. -/
theorem Bar5.run5_once (updates : List Props) (st : Bar5.State) (chart root : Nat)
    (hc : st.cleanup
      = some (fun w1 => (w1.dispose Kind.chart chart).dispose Kind.root root))
    (hlc : live Kind.chart st.world.log = [chart])
    (hlr : live Kind.root st.world.log = [root])
    (hoc : OwnedOnce Kind.chart st.world.log chart st.world.next)
    (hor : OwnedOnce Kind.root st.world.log root st.world.next) :
    ∃ chart1 root1,
      (Bar5.run st updates).cleanup
        = some (fun w1 => (w1.dispose Kind.chart chart1).dispose Kind.root root1) ∧
      live Kind.chart (Bar5.run st updates).world.log = [chart1] ∧
      live Kind.root (Bar5.run st updates).world.log = [root1] ∧
      OwnedOnce Kind.chart (Bar5.run st updates).world.log chart1
        (Bar5.run st updates).world.next ∧
      OwnedOnce Kind.root (Bar5.run st updates).world.log root1
        (Bar5.run st updates).world.next := by
  induction updates generalizing st chart root with
  | nil => exact ⟨chart, root, hc, hlc, hlr, hoc, hor⟩
  | cons q rest ih =>
    have hrun : Bar5.run st (q :: rest) = Bar5.run (Bar5.step st q) rest := rfl
    rw [hrun]
    obtain ⟨_, r2, r3, _⟩ := Bar5.step_spec st q chart root hc
    have hn := Bar5.step_next st q chart root hc
    have hcr : Kind.chart ≠ Kind.root := by decide
    have hrc : Kind.root ≠ Kind.chart := by decide
    apply ih (Bar5.step st q) (st.world.next + 1) st.world.next r2
    · rw [r3, live_snoc, (live_snoc_other Kind.chart Kind.root _ hrc _).1,
        (live_snoc_other Kind.chart Kind.root _ hrc _).2,
        (live_update Kind.chart _ chart 0 hlc).1]
      simp [liveStep]
    · rw [r3, (live_snoc_other Kind.root Kind.chart _ hcr _).1]
      have h1 : live Kind.root (st.world.log ++ [EngineCall.dispose Kind.chart chart])
          = [root] := by
        rw [(live_snoc_other Kind.root Kind.chart _ hcr _).2]; exact hlr
      exact (live_update Kind.root _ root _ h1).2
    · rw [r3, hn]
      exact (((hoc.dispose_own.snoc_other _ (fun j h => by cases h)).snoc_other _
        (fun j h => by cases h)).snoc_other _ (fun j h => by cases h)).own _ _
        (Nat.le_succ _) (Nat.lt_succ_self _)
    · rw [r3, hn]
      exact (((hor.snoc_kept _ (fun j h => by cases h)).dispose_own.snoc_other _
        (fun j h => by cases h)).snoc_other _ (fun j h => by cases h)).own _ _
        (le_refl _) (by omega)

/-! ## The data handed to the chart -/

/-- C1: with truncation enabled, the `chart.data` of the chart `Bar` creates is
the first `min |D| 100` records of the dataset in their order: of length 100
and equal to the first 100 records when `|D| > 100`, the dataset itself when
`|D| <= 100`. -/
theorem C1_truncated_data_is_first_100 (stringToNumber : String → JSNumber) (p : Props)
    (w : World Bar.XYChart) :
    ((Bar.effect stringToNumber noFault p true w).1.chart w.next).map (fun c => c.data)
        = some (p.data.take (min p.data.length 100)) ∧
    (100 < p.data.length →
      ((Bar.effect stringToNumber noFault p true w).1.chart w.next).map (fun c => c.data)
        = some (p.data.take 100) ∧ (p.data.take 100).length = 100) ∧
    (p.data.length ≤ 100 →
      ((Bar.effect stringToNumber noFault p true w).1.chart w.next).map (fun c => c.data)
        = some p.data) := by
  have key : ((Bar.effect stringToNumber noFault p true w).1.chart w.next).map
      (fun c => c.data) = some (p.data.take 100) := by
    rw [Bar.effect_noFault]
    simp [Bar.configured_data, chartData_true]
  refine ⟨?_, ?_, ?_⟩
  · rw [key]
    by_cases h : p.data.length ≤ 100
    · rw [Nat.min_eq_left h, List.take_of_length_le h, List.take_of_length_le (le_refl _)]
    · rw [Nat.min_eq_right (by omega)]
  · intro h
    exact ⟨key, by simp; omega⟩
  · intro h
    rw [key, List.take_of_length_le h]

/-- C2: with truncation disabled, the `chart.data` of the chart `Bar` creates is
the dataset itself: same records, same order, same length. -/
theorem C2_untruncated_data_is_dataset (stringToNumber : String → JSNumber) (p : Props)
    (w : World Bar.XYChart) :
    ((Bar.effect stringToNumber noFault p false w).1.chart w.next).map (fun c => c.data)
        = some p.data := by
  rw [Bar.effect_noFault]
  simp [Bar.configured_data, chartData_false]

/-! ## The minimum of the value axis -/

/-- C3: on a non-empty dataset whose `valueField` values are numbers (none
`NaN`), the `min` that `Bar` assigns on its value axis is the value of some
record and no record has a smaller value; on the dataset
`[{c:"a",v:5},{c:"b",v:2},{c:"c",v:9}]` with value field `v` it is 2, not 0. -/
theorem C3_value_axis_min_is_minimum (stringToNumber : String → JSNumber) (p : Props)
    (truncate : Bool) (w : World Bar.XYChart) (hne : p.data ≠ [])
    (hnum : ∀ item ∈ p.data, IsNumberAt p.valueField item) :
    (∃ m,
      ((Bar.effect stringToNumber noFault p truncate w).1.chart w.next).map
          (fun c => c.yAxes.map (fun a => a.min)) = some [some m] ∧
      (∃ item ∈ p.data, item.get p.valueField = Value.num m) ∧
      (∀ item ∈ p.data, ∀ x, item.get p.valueField = Value.num x →
        JSNumber.lt x m = false)) ∧
    ((Bar.effect stringToNumber noFault ⟨exampleData, "c", "v"⟩ truncate w).1.chart
        w.next).map (fun c => c.yAxes.map (fun a => a.min))
      = some [some (JSNumber.fin 2)] ∧
    JSNumber.fin 2 ≠ JSNumber.fin 0 := by
  refine ⟨⟨Bar.minimumValue stringToNumber p.data p.valueField, ?_, ?_⟩, ?_, by decide⟩
  · rw [Bar.effect_noFault]
    simp [Bar.configured_yAxes]
  · exact Bar.minimumValue_spec stringToNumber p.data p.valueField hne hnum
  · rw [Bar.effect_noFault]
    simp only [if_true, Option.map_some', Bar.configured_yAxes]
    have : Bar.minimumValue stringToNumber exampleData "v" = JSNumber.fin 2 := rfl
    rw [this]

/-- The example dataset of the specification satisfies the conditions of C3 and
gets `min = 2`. -/
theorem C3_value_axis_min_is_minimum_witness :
    exampleData ≠ [] ∧ (∀ item ∈ exampleData, IsNumberAt "v" item) ∧
    ((Bar.effect noStrings noFault ⟨exampleData, "c", "v"⟩ false World.empty).1.chart
        0).map (fun c => c.yAxes.map (fun a => a.min))
      = some [some (JSNumber.fin 2)] :=
  have hne : exampleData ≠ [] := by decide
  have hnum : ∀ item ∈ exampleData, IsNumberAt "v" item := by
    intro item hi
    simp only [exampleData, List.mem_cons, List.mem_singleton, List.not_mem_nil, or_false] at hi
    rcases hi with h | h | h <;> subst h
    · exact ⟨JSNumber.fin 5, by decide, rfl⟩
    · exact ⟨JSNumber.fin 2, by decide, rfl⟩
    · exact ⟨JSNumber.fin 9, by decide, rfl⟩
  ⟨hne, hnum,
    (C3_value_axis_min_is_minimum noStrings ⟨exampleData, "c", "v"⟩ false World.empty
      hne hnum).2.1⟩

/-- C9: on the empty dataset the minimum `Bar` computes is `Math.min()` of no
argument, `+Infinity`: it is not a finite number and not the value of a record
(there is none); this is what the value axis receives as `min`, and the effect
runs to its end on this input: the chart is created, it is live, and the
cleanup is returned. -/
theorem C9_empty_dataset_has_no_finite_minimum (stringToNumber : String → JSNumber)
    (categoryField valueField : String) (truncate : Bool) (w : World Bar.XYChart) :
    Bar.minimumValue stringToNumber [] valueField = JSNumber.posInf ∧
    (Bar.minimumValue stringToNumber [] valueField).isFinite = false ∧
    (¬ ∃ item ∈ ([] : List Record),
      item.get valueField = Value.num (Bar.minimumValue stringToNumber [] valueField)) ∧
    ((Bar.effect stringToNumber noFault ⟨[], categoryField, valueField⟩ truncate w).1.chart
        w.next).map (fun c => c.yAxes.map (fun a => a.min))
      = some [some JSNumber.posInf] ∧
    ((Bar.effect stringToNumber noFault ⟨[], categoryField, valueField⟩ truncate w).1.chart
        w.next).map (fun c => c.data) = some [] ∧
    (Bar.effect stringToNumber noFault ⟨[], categoryField, valueField⟩ truncate w).2.isSome
      = true ∧
    (Bar.mount stringToNumber noFault ⟨[], categoryField, valueField⟩).cleanup.isSome = true ∧
    live Kind.chart (Bar.mount stringToNumber noFault ⟨[], categoryField, valueField⟩).world.log
      = [0] := by
  have hmin : Bar.minimumValue stringToNumber [] valueField = JSNumber.posInf := rfl
  refine ⟨hmin, by rw [hmin]; rfl, by simp, ?_, ?_, ?_, ?_, ?_⟩
  · rw [Bar.effect_noFault]
    simp [Bar.configured_yAxes, hmin]
  · rw [Bar.effect_noFault]
    cases truncate <;> simp [Bar.configured_data, chartData_true, chartData_false]
  · rw [Bar.effect_noFault]; rfl
  · unfold Bar.mount; rw [Bar.effect_noFault]; rfl
  · unfold Bar.mount; rw [Bar.effect_noFault]; rfl

/-- C10: the `min` of the value axis is computed on the whole dataset, not on
the records handed to the chart. On a non-empty dataset whose values are
numbers (none `NaN`), in either truncation state, no record of `chart.data` has
a value smaller than the `min` assigned; with truncation enabled the dataset
`minAtEnd` (101 records, the smallest value 0 at index 100) gets `min = 0`
while the minimum over its 100 displayed records is 1. -/
theorem C10_min_over_full_dataset (stringToNumber : String → JSNumber) (p : Props)
    (truncate : Bool) (w : World Bar.XYChart) (hne : p.data ≠ [])
    (hnum : ∀ item ∈ p.data, IsNumberAt p.valueField item) :
    (∃ m c,
      (Bar.effect stringToNumber noFault p truncate w).1.chart w.next = some c ∧
      c.yAxes.map (fun a => a.min) = [some m] ∧
      ∀ item ∈ c.data, ∀ x, item.get p.valueField = Value.num x →
        JSNumber.lt x m = false) ∧
    (100 < minAtEnd.length ∧
     ∃ c, (Bar.effect stringToNumber noFault ⟨minAtEnd, "c", "v"⟩ true w).1.chart w.next
        = some c ∧
      c.data.length = 100 ∧
      c.yAxes.map (fun a => a.min) = [some (JSNumber.fin 0)] ∧
      Bar.minimumValue stringToNumber c.data "v" = JSNumber.fin 1 ∧
      JSNumber.lt (JSNumber.fin 0) (JSNumber.fin 1) = true) := by
  constructor
  · refine ⟨Bar.minimumValue stringToNumber p.data p.valueField,
      Bar.configured stringToNumber p truncate, ?_, Bar.configured_yAxes _ _ _, ?_⟩
    · rw [Bar.effect_noFault]; simp
    · intro item hi x hx
      rw [Bar.configured_data] at hi
      exact (Bar.minimumValue_spec stringToNumber p.data p.valueField hne hnum).2 item
        (Bar.chartData_subset _ _ item hi) x hx
  · refine ⟨by simp [minAtEnd], Bar.configured stringToNumber ⟨minAtEnd, "c", "v"⟩ true,
      ?_, ?_, ?_, ?_, by decide⟩
    · rw [Bar.effect_noFault]; simp
    · rw [Bar.configured_data, chartData_true]; simp [minAtEnd]
    · rw [Bar.configured_yAxes]
      have : Bar.minimumValue stringToNumber minAtEnd "v" = JSNumber.fin 0 := by
        unfold minAtEnd
        rw [minimumValue_replicate]
        rfl
      rw [this]
    · rw [Bar.configured_data, chartData_true]
      have : List.take 100 minAtEnd = List.replicate 100 (mkRecord "a" 1) := by
        simp [minAtEnd, List.take_append_eq_append_take]
      rw [this]
      have h := minimumValue_replicate stringToNumber "a" 1 99 []
      simpa using h

/-- The dataset `minAtEnd` satisfies the conditions of C10. -/
theorem C10_min_over_full_dataset_witness :
    minAtEnd ≠ [] ∧ (∀ item ∈ minAtEnd, IsNumberAt "v" item) ∧
    ∃ c, (Bar.effect noStrings noFault ⟨minAtEnd, "c", "v"⟩ true World.empty).1.chart 0
        = some c ∧
      c.data.length = 100 ∧
      c.yAxes.map (fun a => a.min) = [some (JSNumber.fin 0)] ∧
      Bar.minimumValue noStrings c.data "v" = JSNumber.fin 1 :=
  have hne : minAtEnd ≠ [] := by simp [minAtEnd]
  have hnum : ∀ item ∈ minAtEnd, IsNumberAt "v" item := by
    intro item hi
    simp only [minAtEnd, List.mem_append, List.mem_replicate, List.mem_singleton] at hi
    rcases hi with ⟨_, h⟩ | h <;> subst h
    · exact ⟨JSNumber.fin 1, by decide, rfl⟩
    · exact ⟨JSNumber.fin 0, by decide, rfl⟩
  ⟨hne, hnum,
    match (C10_min_over_full_dataset noStrings ⟨minAtEnd, "c", "v"⟩ true World.empty
      hne hnum).2.2 with
    | ⟨c, h1, h2, h3, h4, _⟩ => ⟨c, h1, h2, h3, h4⟩⟩

/-! ## The lifecycle -/

/-- C4: after a mount followed by any finite sequence of updates (changed props,
clicks on the toggle in `Bar`; changed props in `Bar5`), exactly one chart is
live (in `Bar5` also exactly one root); it holds the settings built from the
inputs supplied last; charts exist one at a time over the whole log (at most one
live after each initial segment, none live at the moment one is created); there
is one `create` call per mount or update and one `dispose` call fewer. -/
theorem C4_one_live_chart_after_updates (stringToNumber : String → JSNumber) (p : Props)
    (events : List Bar.Event) (updates : List Props) :
    (∃ id,
      live Kind.chart (Bar.run stringToNumber (Bar.mount stringToNumber noFault p)
        events).world.log = [id] ∧
      (Bar.run stringToNumber (Bar.mount stringToNumber noFault p) events).world.chart id
        = some (Bar.configured stringToNumber (Bar.lastProps p events)
            (decide (Bar.clicks events % 2 = 1))) ∧
      OneAtATime Kind.chart (Bar.run stringToNumber (Bar.mount stringToNumber noFault p)
        events).world.log ∧
      creates Kind.chart (Bar.run stringToNumber (Bar.mount stringToNumber noFault p)
        events).world.log = events.length + 1 ∧
      disposes Kind.chart (Bar.run stringToNumber (Bar.mount stringToNumber noFault p)
        events).world.log
        = creates Kind.chart (Bar.run stringToNumber (Bar.mount stringToNumber noFault p)
            events).world.log - 1) ∧
    (∃ chart root,
      live Kind.chart (Bar5.run (Bar5.mount noFault p) updates).world.log = [chart] ∧
      live Kind.root (Bar5.run (Bar5.mount noFault p) updates).world.log = [root] ∧
      (Bar5.run (Bar5.mount noFault p) updates).world.chart chart
        = some (Bar5.configured (Bar5.lastProps p updates)) ∧
      OneAtATime Kind.chart (Bar5.run (Bar5.mount noFault p) updates).world.log ∧
      OneAtATime Kind.root (Bar5.run (Bar5.mount noFault p) updates).world.log ∧
      (∀ kind, creates kind (Bar5.run (Bar5.mount noFault p) updates).world.log
        = updates.length + 1) ∧
      (∀ kind, disposes kind (Bar5.run (Bar5.mount noFault p) updates).world.log
        = creates kind (Bar5.run (Bar5.mount noFault p) updates).world.log - 1)) := by
  constructor
  · obtain ⟨m1, m2, m3, m4, m5⟩ := Bar.mount_noFault stringToNumber p
    have hl : live Kind.chart (Bar.mount stringToNumber noFault p).world.log = [0] := by
      rw [m4]; rfl
    have ho : OneAtATime Kind.chart (Bar.mount stringToNumber noFault p).world.log := by
      rw [m4]
      exact (OneAtATime.nil Kind.chart).snoc_create 0 rfl
    obtain ⟨id, _, a2, a3, a4, a5, a6, a7, a8⟩ :=
      Bar.run_invariant stringToNumber events (Bar.mount stringToNumber noFault p) 0 m3 hl ho
        (by rw [m5, m1, m2])
    have hcr : creates Kind.chart (Bar.mount stringToNumber noFault p).world.log = 1 := by
      rw [m4]; rfl
    have hdi : disposes Kind.chart (Bar.mount stringToNumber noFault p).world.log = 0 := by
      rw [m4]; rfl
    refine ⟨id, a2, ?_, a3, ?_, ?_⟩
    · rw [a4, a5, a6, m1, m2]; simp
    · rw [a7, hcr]; omega
    · rw [a7, a8, hcr, hdi]; omega
  · obtain ⟨m1, m2, m3, m4⟩ := Bar5.mount5_noFault p
    have hlc : live Kind.chart (Bar5.mount noFault p).world.log = [1] := by
      rw [m3]; rfl
    have hlr : live Kind.root (Bar5.mount noFault p).world.log = [0] := by
      rw [m3]; rfl
    have hoc : OneAtATime Kind.chart (Bar5.mount noFault p).world.log := by
      rw [m3]
      exact ((OneAtATime.nil Kind.chart).snoc_create_other Kind.root 0 (by decide)).snoc_create
        1 rfl
    have hor : OneAtATime Kind.root (Bar5.mount noFault p).world.log := by
      rw [m3]
      exact ((OneAtATime.nil Kind.root).snoc_create 0 rfl).snoc_create_other Kind.chart 1
        (by decide)
    obtain ⟨c1, n1, _, a2, a3, a4, a5, a6, a7, a8, a9⟩ :=
      Bar5.run5_invariant updates (Bar5.mount noFault p) 1 0 m2 hlc hlr hoc hor
        (by rw [m4, m1])
    have hcr : ∀ kind, creates kind (Bar5.mount noFault p).world.log = 1 := by
      intro kind; rw [m3]; cases kind <;> rfl
    have hdi : ∀ kind, disposes kind (Bar5.mount noFault p).world.log = 0 := by
      intro kind; rw [m3]; cases kind <;> rfl
    refine ⟨c1, n1, a2, a3, ?_, a4, a5, ?_, ?_⟩
    · rw [a6, a7, m1]
    · intro kind; rw [a8, hcr]; omega
    · intro kind; rw [a8, a9, hcr, hdi]; omega

/-- C5: `truncate` starts as `false`; the button rendered while it is `false`
sets it to `true` and the one rendered while it is `true` sets it to `false`, so
two clicks restore it. For a dataset of more than 100 records the chart built
at mount receives all the records, the chart rebuilt after one click receives
exactly 100 (the first 100), and the chart rebuilt after a second click
receives all the records again; each time the rebuilt chart is the only live one. -/
theorem C5_toggle_twice_restores (stringToNumber : String → JSNumber) (p : Props)
    (hlen : 100 < p.data.length) :
    (Bar.mount stringToNumber noFault p).truncate = false ∧
    (Bar.button false).onClick = true ∧ (Bar.button true).onClick = false ∧
    (Bar.run stringToNumber (Bar.mount stringToNumber noFault p)
      [Bar.Event.click]).truncate = true ∧
    (Bar.run stringToNumber (Bar.mount stringToNumber noFault p)
      [Bar.Event.click, Bar.Event.click]).truncate = false ∧
    (∃ id, live Kind.chart (Bar.mount stringToNumber noFault p).world.log = [id] ∧
      ((Bar.mount stringToNumber noFault p).world.chart id).map (fun c => c.data)
        = some p.data) ∧
    (∃ id, live Kind.chart (Bar.run stringToNumber (Bar.mount stringToNumber noFault p)
        [Bar.Event.click]).world.log = [id] ∧
      ((Bar.run stringToNumber (Bar.mount stringToNumber noFault p)
        [Bar.Event.click]).world.chart id).map (fun c => c.data) = some (p.data.take 100) ∧
      ((Bar.run stringToNumber (Bar.mount stringToNumber noFault p)
        [Bar.Event.click]).world.chart id).map (fun c => c.data.length) = some 100) ∧
    (∃ id, live Kind.chart (Bar.run stringToNumber (Bar.mount stringToNumber noFault p)
        [Bar.Event.click, Bar.Event.click]).world.log = [id] ∧
      ((Bar.run stringToNumber (Bar.mount stringToNumber noFault p)
        [Bar.Event.click, Bar.Event.click]).world.chart id).map (fun c => c.data)
          = some p.data) := by
  obtain ⟨m1, m2, m3, m4, m5⟩ := Bar.mount_noFault stringToNumber p
  have hl : live Kind.chart (Bar.mount stringToNumber noFault p).world.log = [0] := by
    rw [m4]; rfl
  have ho : OneAtATime Kind.chart (Bar.mount stringToNumber noFault p).world.log := by
    rw [m4]
    exact (OneAtATime.nil Kind.chart).snoc_create 0 rfl
  have inv := fun events =>
    Bar.run_invariant stringToNumber events (Bar.mount stringToNumber noFault p) 0 m3 hl ho
      (by rw [m5, m1, m2])
  obtain ⟨i1, _, b2, _, b4, b5, b6, _, _⟩ := inv [Bar.Event.click]
  obtain ⟨i2, _, c2, _, c4, c5, c6, _, _⟩ := inv [Bar.Event.click, Bar.Event.click]
  have t1 : (Bar.run stringToNumber (Bar.mount stringToNumber noFault p)
      [Bar.Event.click]).truncate = true := by rw [b6, m2]; rfl
  have t2 : (Bar.run stringToNumber (Bar.mount stringToNumber noFault p)
      [Bar.Event.click, Bar.Event.click]).truncate = false := by rw [c6, m2]; rfl
  refine ⟨m2, rfl, rfl, t1, t2, ⟨0, hl, ?_⟩, ⟨i1, b2, ?_, ?_⟩, ⟨i2, c2, ?_⟩⟩
  · rw [m5]; simp [Bar.configured_data, chartData_false]
  · rw [b4, b5, t1, m1]
    simp [Bar.configured_data, chartData_true, Bar.lastProps]
  · rw [b4, b5, t1, m1]
    simp only [Option.map_some', Bar.configured_data, chartData_true, Bar.lastProps,
      List.length_take]
    congr 1; omega
  · rw [c4, c5, t2, m1]
    simp [Bar.configured_data, chartData_false, Bar.lastProps]

/-- The scenario of C5 on a dataset of 1000 records. -/
theorem C5_toggle_twice_restores_witness :
    100 < thousand.length ∧
    (∃ id, live Kind.chart (Bar.run noStrings (Bar.mount noStrings noFault
        ⟨thousand, "c", "v"⟩) [Bar.Event.click]).world.log = [id] ∧
      ((Bar.run noStrings (Bar.mount noStrings noFault ⟨thousand, "c", "v"⟩)
        [Bar.Event.click]).world.chart id).map (fun c => c.data.length) = some 100) ∧
    (∃ id, live Kind.chart (Bar.run noStrings (Bar.mount noStrings noFault
        ⟨thousand, "c", "v"⟩) [Bar.Event.click, Bar.Event.click]).world.log = [id] ∧
      ((Bar.run noStrings (Bar.mount noStrings noFault ⟨thousand, "c", "v"⟩)
        [Bar.Event.click, Bar.Event.click]).world.chart id).map (fun c => c.data)
          = some thousand) :=
  have hlen : 100 < thousand.length := by
    rw [thousand, List.length_replicate]; decide
  have h := C5_toggle_twice_restores noStrings ⟨thousand, "c", "v"⟩ hlen
  ⟨hlen,
    match h.2.2.2.2.2.2.1 with
    | ⟨id, h1, _, h3⟩ => ⟨id, h1, h3⟩,
    h.2.2.2.2.2.2.2⟩

/-! ## Release of what was acquired -/

/-- C6, as the claim states it, fails: when the statement of `Bar` that assigns
`chart.data` raises, the effect returns no cleanup and the chart created before
it is live after the failed mount, also after the teardown of the component. -/
theorem C6_counterexample :
    (Bar.mount noStrings (faultAt 1) ⟨exampleData, "c", "v"⟩).cleanup.isSome = false ∧
    live Kind.chart (Bar.mount noStrings (faultAt 1) ⟨exampleData, "c", "v"⟩).world.log ≠ [] ∧
    live Kind.chart (Bar.unmount (Bar.mount noStrings (faultAt 1)
      ⟨exampleData, "c", "v"⟩)).log = [0] := by
  refine ⟨rfl, ?_, rfl⟩
  decide

/-- C6, amended: the effect returns its cleanup only when its whole body ran;
then the cleanup releases what was acquired (mount followed by teardown leaves
nothing live). When a statement `k` after the first creation raises, no cleanup
is returned and nothing releases what was acquired: in `Bar` the chart stays
live after the failed mount and after teardown; in `Bar5` the root stays live,
and so does the chart when it had been created (statements 1 and 2 did not
raise). -/
theorem C6_failed_mount_releases_nothing (stringToNumber : String → JSNumber)
    (fault : Nat → Bool) (p : Props) (k : Nat)
    (h0 : fault 0 = false) (hk1 : 1 ≤ k) (hk : fault k = true) :
    (k ≤ 9 →
      (Bar.mount stringToNumber fault p).cleanup = none ∧
      live Kind.chart (Bar.mount stringToNumber fault p).world.log = [0] ∧
      live Kind.chart (Bar.unmount (Bar.mount stringToNumber fault p)).log = [0]) ∧
    (k ≤ 11 →
      (Bar5.mount fault p).cleanup = none ∧
      live Kind.root (Bar5.mount fault p).world.log = [0] ∧
      live Kind.root (Bar5.unmount (Bar5.mount fault p)).log = [0] ∧
      (fault 1 = false → fault 2 = false →
        live Kind.chart (Bar5.unmount (Bar5.mount fault p)).log = [1])) ∧
    live Kind.chart (Bar.unmount (Bar.mount stringToNumber noFault p)).log = [] ∧
    live Kind.chart (Bar5.unmount (Bar5.mount noFault p)).log = [] ∧
    live Kind.root (Bar5.unmount (Bar5.mount noFault p)).log = [] := by
  refine ⟨?_, ?_, ?_, ?_, ?_⟩
  · intro hk9
    obtain ⟨e1, e2⟩ := Bar.effect_fault stringToNumber fault p false World.empty k h0 hk1 hk9 hk
    have hc : (Bar.mount stringToNumber fault p).cleanup = none := e1
    have hl : (Bar.mount stringToNumber fault p).world.log
        = [EngineCall.create Kind.chart 0] := e2
    refine ⟨hc, by rw [hl]; rfl, ?_⟩
    unfold Bar.unmount
    rw [hc]
    simp only [runCleanup]
    rw [hl]; rfl
  · intro hk11
    obtain ⟨e1, e2⟩ := Bar5.effect5_fault fault p World.empty k h0 hk1 hk11 hk
    have hc : (Bar5.mount fault p).cleanup = none := e1
    have hu : Bar5.unmount (Bar5.mount fault p) = (Bar5.mount fault p).world := by
      unfold Bar5.unmount
      rw [hc]; rfl
    have hl : (Bar5.mount fault p).world.log
        = (if fault 1 || fault 2 then [EngineCall.create Kind.root 0]
           else [EngineCall.create Kind.root 0, EngineCall.create Kind.chart 1]) := e2
    have hr : live Kind.root (Bar5.mount fault p).world.log = [0] := by
      rw [hl]; split <;> rfl
    refine ⟨hc, hr, by rw [hu]; exact hr, ?_⟩
    intro h1 h2
    rw [hu, hl, h1, h2]; rfl
  · obtain ⟨_, _, m3, m4, _⟩ := Bar.mount_noFault stringToNumber p
    unfold Bar.unmount
    rw [m3]
    simp only [runCleanup, World.dispose]
    rw [m4]; rfl
  · obtain ⟨_, m2, m3, _⟩ := Bar5.mount5_noFault p
    unfold Bar5.unmount
    rw [m2]
    simp only [runCleanup, World.dispose]
    rw [m3]; rfl
  · obtain ⟨_, m2, m3, _⟩ := Bar5.mount5_noFault p
    unfold Bar5.unmount
    rw [m2]
    simp only [runCleanup, World.dispose]
    rw [m3]; rfl

/-- The amended C6 when the statement that creates the series raises. -/
theorem C6_failed_mount_releases_nothing_witness :
    faultAt 4 0 = false ∧ 1 ≤ 4 ∧ faultAt 4 4 = true ∧
    (Bar.mount noStrings (faultAt 4) ⟨exampleData, "c", "v"⟩).cleanup = none ∧
    live Kind.chart (Bar.unmount (Bar.mount noStrings (faultAt 4)
      ⟨exampleData, "c", "v"⟩)).log = [0] ∧
    live Kind.root (Bar5.unmount (Bar5.mount (faultAt 4) ⟨exampleData, "c", "v"⟩)).log = [0] ∧
    live Kind.chart (Bar5.unmount (Bar5.mount (faultAt 4) ⟨exampleData, "c", "v"⟩)).log = [1] :=
  have h := C6_failed_mount_releases_nothing noStrings (faultAt 4) ⟨exampleData, "c", "v"⟩ 4
    (by decide) (by decide) (by decide)
  ⟨by decide, by decide, by decide, (h.1 (by decide)).1, (h.1 (by decide)).2.2,
    (h.2.1 (by decide)).2.2.1, (h.2.1 (by decide)).2.2.2 (by decide) (by decide)⟩

/-- C7: after mount followed by dispose no chart is live (in `Bar5` no root
either) and the release routine of each acquired object ran once. Dispose is
idempotent: with the guarded `dispose` of the engine, the cleanup invoked again,
any number of times, changes nothing on the engine side: the objects live and
the runs of every release routine are those after the first invocation. And
whatever the engine does on a repeated call, over a whole lifecycle (mount, any
updates, teardown) nothing is live at the end and the release routine of every
object ran at most once, because no object receives a second `dispose` call. -/
theorem C7_release_at_most_once (stringToNumber : String → JSNumber) (p : Props)
    (events : List Bar.Event) (updates : List Props) (guarded : Bool) (kind : Kind)
    (id n : Nat) :
    (live Kind.chart (Bar.unmount (Bar.mount stringToNumber noFault p)).log = [] ∧
     releaseRuns guarded Kind.chart 0
       (Bar.unmount (Bar.mount stringToNumber noFault p)).log = 1) ∧
    (live Kind.chart (Bar5.unmount (Bar5.mount noFault p)).log = [] ∧
     live Kind.root (Bar5.unmount (Bar5.mount noFault p)).log = [] ∧
     releaseRuns guarded Kind.chart 1 (Bar5.unmount (Bar5.mount noFault p)).log = 1 ∧
     releaseRuns guarded Kind.root 0 (Bar5.unmount (Bar5.mount noFault p)).log = 1) ∧
    (∃ cleanup, (Bar.mount stringToNumber noFault p).cleanup = some cleanup ∧
      live kind (cleanup^[n + 1] (Bar.mount stringToNumber noFault p).world).log
        = live kind (cleanup (Bar.mount stringToNumber noFault p).world).log ∧
      releaseRuns true kind id
          (cleanup^[n + 1] (Bar.mount stringToNumber noFault p).world).log
        = releaseRuns true kind id
          (cleanup (Bar.mount stringToNumber noFault p).world).log) ∧
    (∃ cleanup, (Bar5.mount noFault p).cleanup = some cleanup ∧
      live kind (cleanup^[n + 1] (Bar5.mount noFault p).world).log
        = live kind (cleanup (Bar5.mount noFault p).world).log ∧
      releaseRuns true kind id (cleanup^[n + 1] (Bar5.mount noFault p).world).log
        = releaseRuns true kind id (cleanup (Bar5.mount noFault p).world).log) ∧
    (live Kind.chart (Bar.unmount (Bar.run stringToNumber
        (Bar.mount stringToNumber noFault p) events)).log = [] ∧
     releaseRuns guarded Kind.chart id (Bar.run stringToNumber
        (Bar.mount stringToNumber noFault p) events).world.log ≤ 1 ∧
     releaseRuns guarded Kind.chart id (Bar.unmount (Bar.run stringToNumber
        (Bar.mount stringToNumber noFault p) events)).log ≤ 1) ∧
    (live Kind.chart (Bar5.unmount (Bar5.run (Bar5.mount noFault p) updates)).log = [] ∧
     live Kind.root (Bar5.unmount (Bar5.run (Bar5.mount noFault p) updates)).log = [] ∧
     releaseRuns guarded kind id (Bar5.run (Bar5.mount noFault p) updates).world.log ≤ 1 ∧
     releaseRuns guarded kind id
       (Bar5.unmount (Bar5.run (Bar5.mount noFault p) updates)).log ≤ 1) := by
  obtain ⟨_, _, m3, m4, _⟩ := Bar.mount_noFault stringToNumber p
  obtain ⟨_, n2, n3, _⟩ := Bar5.mount5_noFault p
  have hcr : Kind.chart ≠ Kind.root := by decide
  have hrc : Kind.root ≠ Kind.chart := by decide
  refine ⟨?_, ?_, ⟨_, m3, ?_⟩, ⟨_, n2, ?_⟩, ?_, ?_⟩
  · have hu : (Bar.unmount (Bar.mount stringToNumber noFault p)).log
        = [EngineCall.create Kind.chart 0] ++ [EngineCall.dispose Kind.chart 0] := by
      unfold Bar.unmount
      rw [m3]
      simp only [runCleanup, World.dispose]
      rw [m4]
    rw [hu]
    exact ⟨rfl, by cases guarded <;> rfl⟩
  · have hu : (Bar5.unmount (Bar5.mount noFault p)).log
        = [EngineCall.create Kind.root 0, EngineCall.create Kind.chart 1]
            ++ [EngineCall.dispose Kind.chart 1] ++ [EngineCall.dispose Kind.root 0] := by
      unfold Bar5.unmount
      rw [n2]
      simp only [runCleanup, World.dispose]
      rw [n3]
    rw [hu]
    exact ⟨rfl, rfl, by cases guarded <;> rfl, by cases guarded <;> rfl⟩
  · exact iterate_dispose_engine Kind.chart 0 n _ kind id
  · exact iterate_dispose2_engine 1 0 n _ kind id
  · have ho : OwnedOnce Kind.chart (Bar.mount stringToNumber noFault p).world.log 0
        (Bar.mount stringToNumber noFault p).world.next := by
      rw [m4, Bar.mount_next]
      exact ⟨by omega, rfl, fun j => by simp [disposeCalls], fun j _ => by simp [disposeCalls]⟩
    obtain ⟨id1, a1, a2, a3⟩ :=
      Bar.run_once stringToNumber events (Bar.mount stringToNumber noFault p) 0 m3
        (by rw [m4]; rfl) ho
    have hu : (Bar.unmount (Bar.run stringToNumber (Bar.mount stringToNumber noFault p)
        events)).log
        = (Bar.run stringToNumber (Bar.mount stringToNumber noFault p) events).world.log
            ++ [EngineCall.dispose Kind.chart id1] := by
      unfold Bar.unmount
      rw [a1]
      rfl
    refine ⟨?_, a3.2.2.releaseRuns_le guarded id, ?_⟩
    · rw [hu]; exact (live_update Kind.chart _ id1 0 a2).1
    · rw [hu]; exact a3.dispose_own.releaseRuns_le guarded id
  · have hoc : OwnedOnce Kind.chart (Bar5.mount noFault p).world.log 1
        (Bar5.mount noFault p).world.next := by
      rw [n3, Bar5.mount5_next]
      exact ⟨by omega, rfl, fun j => by simp [disposeCalls], fun j _ => by simp [disposeCalls]⟩
    have hor : OwnedOnce Kind.root (Bar5.mount noFault p).world.log 0
        (Bar5.mount noFault p).world.next := by
      rw [n3, Bar5.mount5_next]
      exact ⟨by omega, rfl, fun j => by simp [disposeCalls], fun j _ => by simp [disposeCalls]⟩
    obtain ⟨c1, r1, a1, a2, a3, a4, a5⟩ :=
      Bar5.run5_once updates (Bar5.mount noFault p) 1 0 n2 (by rw [n3]; rfl)
        (by rw [n3]; rfl) hoc hor
    have hu : (Bar5.unmount (Bar5.run (Bar5.mount noFault p) updates)).log
        = (Bar5.run (Bar5.mount noFault p) updates).world.log
            ++ [EngineCall.dispose Kind.chart c1] ++ [EngineCall.dispose Kind.root r1] := by
      unfold Bar5.unmount
      rw [a1]
      rfl
    have hc1 : AllOnce Kind.chart ((Bar5.run (Bar5.mount noFault p) updates).world.log
        ++ [EngineCall.dispose Kind.chart c1] ++ [EngineCall.dispose Kind.root r1])
        (Bar5.run (Bar5.mount noFault p) updates).world.next :=
      a4.dispose_own.snoc_other _ (fun j h => by cases h)
    have hr1 : AllOnce Kind.root ((Bar5.run (Bar5.mount noFault p) updates).world.log
        ++ [EngineCall.dispose Kind.chart c1] ++ [EngineCall.dispose Kind.root r1])
        (Bar5.run (Bar5.mount noFault p) updates).world.next :=
      (a5.snoc_kept _ (fun j h => by cases h)).dispose_own
    refine ⟨?_, ?_, ?_, ?_⟩
    · rw [hu, (live_snoc_other Kind.chart Kind.root _ hrc _).2]
      exact (live_update Kind.chart _ c1 0 a2).1
    · rw [hu]
      have h1 : live Kind.root ((Bar5.run (Bar5.mount noFault p) updates).world.log
          ++ [EngineCall.dispose Kind.chart c1]) = [r1] := by
        rw [(live_snoc_other Kind.root Kind.chart _ hcr _).2]; exact a3
      exact (live_update Kind.root _ r1 0 h1).1
    · cases kind
      · exact a4.2.2.releaseRuns_le guarded id
      · exact a5.2.2.releaseRuns_le guarded id
    · rw [hu]
      cases kind
      · exact hc1.releaseRuns_le guarded id
      · exact hr1.releaseRuns_le guarded id

/-! ## The two engines -/

/-- C8, as the claim states it, fails: on the example dataset `Bar` assigns
`min = 2` on its value axis while `Bar5` passes no `min`; and with truncation
enabled `Bar` hands the first 100 of the 101 records of `minAtEnd` to its chart
while `Bar5`, which has no truncation state, hands all 101 to its series. -/
theorem C8_counterexample :
    ((Bar.effect noStrings noFault ⟨exampleData, "c", "v"⟩ false World.empty).1.chart 0).map
        (fun c => c.yAxes.map (fun a => a.min))
      ≠ ((Bar5.effect noFault ⟨exampleData, "c", "v"⟩ World.empty).1.chart 1).map
        (fun c => c.yAxes.map (fun a => a.min)) ∧
    ((Bar.effect noStrings noFault ⟨minAtEnd, "c", "v"⟩ true World.empty).1.chart 0).map
        (fun c => c.data.length) = some 100 ∧
    ((Bar5.effect noFault ⟨minAtEnd, "c", "v"⟩ World.empty).1.chart 1).map
        (fun c => c.series.map (fun s => s.data.length)) = some [101] := by
  refine ⟨by decide, ?_, ?_⟩
  · rw [Bar.effect_noFault]
    simp [World.empty, Bar.configured_data, chartData_true, minAtEnd]
  · rw [Bar5.effect5_noFault]
    simp [World.empty, Bar5.configured, Bar5.steps, Bar5.XYChart.new, minAtEnd]

/-- C8, amended: for every dataset, category field, value field and truncation
state, both components bind the category axis and the series to the same
`categoryField` and `valueField`. `Bar5` always hands the full dataset to its
category axis and its series and passes no `min` to its value axis; `Bar` hands
the full dataset when truncation is disabled and its first 100 records when it
is enabled, and assigns the minimum of the values as `min`. -/
theorem C8_engines_share_field_bindings (stringToNumber : String → JSNumber) (p : Props)
    (truncate : Bool) (w : World Bar.XYChart) (w5 : World Bar5.XYChart) :
    ∃ c c5,
      (Bar.effect stringToNumber noFault p truncate w).1.chart w.next = some c ∧
      (Bar5.effect noFault p w5).1.chart (w5.next + 1) = some c5 ∧
      c.xAxes.map (fun a => a.category) = [p.categoryField] ∧
      c5.xAxes.map (fun a => a.categoryField) = [p.categoryField] ∧
      c.series.map (fun s => (s.categoryX, s.valueY)) = [(p.categoryField, p.valueField)] ∧
      c5.series.map (fun s => (s.categoryXField, s.valueYField))
        = [(p.categoryField, p.valueField)] ∧
      c5.xAxes.map (fun a => a.data) = [p.data] ∧
      c5.series.map (fun s => s.data) = [p.data] ∧
      c.data = (if truncate then p.data.take 100 else p.data) ∧
      c5.yAxes.map (fun a => a.min) = [none] ∧
      c.yAxes.map (fun a => a.min)
        = [some (Bar.minimumValue stringToNumber p.data p.valueField)] := by
  refine ⟨Bar.configured stringToNumber p truncate, Bar5.configured p, ?_, ?_,
    rfl, rfl, rfl, rfl, rfl, rfl, ?_, rfl, rfl⟩
  · rw [Bar.effect_noFault]; simp
  · rw [Bar5.effect5_noFault]; simp
  · rw [Bar.configured_data]
    cases truncate
    · simp [chartData_false]
    · simp [chartData_true]

end Vizor
